import Mathlib

/-!
Verification of the bmkg-artikel-automation repository.

This file shallowly embeds the parts of the Python sources that the
claims C1..C10 are about:

* `src/wilayah_db.py`   (WilayahDatabase: SQLite region store)
* `src/city_selector_db.py` (CitySelector)
* `src/bmkg_api.py`     (BMKGWeatherAPI and fetch_all_cities_weather)
* `src/template_generator.py` (WeatherArticleGenerator)
* `src/ai_generator.py` (GeminiAIGenerator.generate_title)

SQLite tables are modelled as lists of rows (scan order = list order,
matching SQLite's behaviour for tables without indexes), randomness and
HTTP are modelled as oracle parameters, and Python strings as Lean
strings with all character work done on `String.data`.
-/

namespace Bmkg

/-! ### ASCII string helpers (Python str.lower/upper/capitalize, SQLite UPPER) -/

/-- ASCII lower-casing of one character (SQLite `UPPER`/Python on the
ASCII data used by this program). -/
def asciiLower (c : Char) : Char :=
  if 'A' ≤ c ∧ c ≤ 'Z' then Char.ofNat (c.toNat + 32) else c

/-- ASCII upper-casing of one character. -/
def asciiUpper (c : Char) : Char :=
  if 'a' ≤ c ∧ c ≤ 'z' then Char.ofNat (c.toNat - 32) else c

/-- Lower-case a string (ASCII). -/
def lowerS (s : String) : String := ⟨s.data.map asciiLower⟩

/-- Upper-case a string (ASCII), the model of SQLite `UPPER(...)`. -/
def upperS (s : String) : String := ⟨s.data.map asciiUpper⟩

/-- Python `str.capitalize()`: first character upper-cased, the rest
lower-cased. -/
def capitalizeS (s : String) : String :=
  match s.data with
  | [] => ""
  | c :: cs => ⟨asciiUpper c :: cs.map asciiLower⟩

/-- Boolean prefix test on character lists: `isPre p s` holds when `p`
is a prefix of `s`.  Models SQL `LIKE 'p%'` and Python `startswith`. -/
def isPre : List Char → List Char → Bool
  | [], _ => true
  | _ :: _, [] => false
  | p :: ps, c :: cs => p = c && isPre ps cs

/-- Boolean substring test: `hasSub p s` holds when `p` occurs
contiguously inside `s`.  Models SQL `LIKE '%p%'` and Python `in`. -/
def hasSub (p : List Char) : List Char → Bool
  | [] => isPre p []
  | c :: cs => isPre p (c :: cs) || hasSub p cs

/-- Number of positions of `s` at which `p` starts (occurrence count of
a pattern, counting overlapping occurrences once per start position). -/
def countSub (p : List Char) : List Char → Nat
  | [] => if isPre p [] then 1 else 0
  | c :: cs => (if isPre p (c :: cs) then 1 else 0) + countSub p cs

/-- Decimal digit test. -/
def isDigitC (c : Char) : Bool := '0' ≤ c && c ≤ '9'

/-- Value of a decimal digit character. -/
def digitVal (c : Char) : Nat := c.toNat - '0'.toNat

/-- Value of the leading run of decimal digits of a character list
(accumulator form).  `castIntAux acc cs` reads digits of `cs` onto
`acc` and stops at the first non-digit. -/
def castIntAux (acc : Nat) : List Char → Nat
  | [] => acc
  | c :: cs => if isDigitC c then castIntAux (acc * 10 + digitVal c) cs else acc

/-- SQLite `CAST(s AS INTEGER)` on the non-negative strings this
program feeds it: value of the leading digit run, `0` if none. -/
def castInt (s : List Char) : Nat := castIntAux 0 s

/-- Strict parse of a character list that must consist only of decimal
digits (used for the fixed-width datetime fields). -/
def allDigitsVal (cs : List Char) : Option Nat :=
  if cs.all isDigitC then some (castInt cs) else none

/-! ### Region store: `wilayah_db.py` -/

/-- One row of the `wilayah_2020` table: `(kode, nama)`. -/
structure Row where
  kode : String
  nama : String
deriving DecidableEq, Repr

/-- The static province-prefix → timezone map of
`WilayahDatabase.__init__` (`self.timezone_mapping`), in source order.
Python dicts preserve insertion order, so a list of pairs is a faithful
model. -/
def timezone_mapping : List (String × String × Nat) :=
  [("11", ("WIB", 7)), ("12", ("WIB", 7)), ("13", ("WIB", 7)),
   ("14", ("WIB", 7)), ("15", ("WIB", 7)), ("16", ("WIB", 7)),
   ("17", ("WIB", 7)), ("18", ("WIB", 7)), ("19", ("WIB", 7)),
   ("21", ("WIB", 7)), ("31", ("WIB", 7)), ("32", ("WIB", 7)),
   ("33", ("WIB", 7)), ("34", ("WIB", 7)), ("35", ("WIB", 7)),
   ("36", ("WIB", 7)), ("61", ("WIB", 7)), ("62", ("WITA", 8)),
   ("63", ("WITA", 8)), ("64", ("WITA", 8)), ("65", ("WITA", 8)),
   ("51", ("WITA", 8)), ("52", ("WITA", 8)), ("53", ("WITA", 8)),
   ("71", ("WITA", 8)), ("72", ("WITA", 8)), ("73", ("WITA", 8)),
   ("74", ("WITA", 8)), ("75", ("WITA", 8)), ("76", ("WITA", 8)),
   ("81", ("WIT", 9)), ("82", ("WIT", 9)), ("91", ("WIT", 9)),
   ("92", ("WIT", 9)), ("93", ("WIT", 9)), ("94", ("WIT", 9)),
   ("95", ("WIT", 9)), ("96", ("WIT", 9))]

/-! #### Bulk import: `WilayahDatabase.import_from_sql`

The method executes

```
CREATE TABLE IF NOT EXISTS wilayah_2020 (
    kode varchar(13) NOT NULL,
    nama varchar(100) DEFAULT NULL
)
```

and then runs `INSERT OR IGNORE INTO wilayah_2020 (kode, nama) VALUES (?, ?)`
for every `(code, name)` pair extracted from the dump by regex.  A dump
file is modelled by the list of pairs that the (deterministic) regex
extraction yields for it; the database file is modelled by
`Option (List Row)` (`none` = file absent, rows in insertion order). -/

/-- Whether inserting `r` would violate a uniqueness constraint of the
`wilayah_2020` table.  The `CREATE TABLE` statement above declares no
PRIMARY KEY and no UNIQUE constraint, so no insert ever conflicts and
SQLite's `OR IGNORE` clause never has anything to ignore. -/
def uniquenessViolation (_t : List Row) (_r : Row) : Bool := false

/-- One `INSERT OR IGNORE` statement: append the row unless it violates
a declared uniqueness constraint. -/
def insert_or_ignore (t : List Row) (r : Row) : List Row :=
  if uniquenessViolation t r then t else t ++ [r]

/-- The batched executemany loop of `import_from_sql`: insert every
extracted pair in order (batching in groups of 1000 does not change the
final table contents). -/
def import_values (t : List Row) (vals : List Row) : List Row :=
  vals.foldl insert_or_ignore t

/-- Model of `WilayahDatabase.import_from_sql`: create the table if the database
does not yet have it, then insert-or-ignore every extracted pair. -/
def import_from_sql (db : Option (List Row)) (vals : List Row) : List Row :=
  import_values (db.getD []) vals

/-- Python `kode.split('.')[0]`: the characters before the first dot. -/
def splitHeadDot (kode : String) : String :=
  ⟨kode.data.takeWhile (fun c => c ≠ '.')⟩

/-- Model of `WilayahDatabase.get_timezone_info`: look the leading dot-delimited
segment of `kode` up in `timezone_mapping`, defaulting to `('WIB', 7)`
(`dict.get(prov_code, ('WIB', 7))`). -/
def get_timezone_info (kode : String) : String × Nat :=
  match timezone_mapping.find? (fun e => e.1 = splitHeadDot kode) with
  | some e => e.2
  | none => ("WIB", 7)

/-! #### Region queries

SQL scans are modelled over the row list in scan order; `LIKE 'x%'`
is a prefix test, `LIKE '%x%'` a substring test, and
`UPPER(nama) LIKE UPPER('%q%')` an ASCII-case-insensitive substring
test.  `ORDER BY nama` is insertion sort by the raw `nama` (SQLite
BINARY collation = code-point order on this ASCII data). -/

/-- A city record as produced by `WilayahDatabase` queries: the dict
`{'name': ..., 'code': ..., 'timezone': ..., 'timezone_offset': ...}`. -/
structure City where
  name : String
  code : String
  timezone : String
  timezone_offset : Nat
deriving DecidableEq, Repr

/-- Model of `CAST(SUBSTR(kode, 4, 2) AS INTEGER) >= 71`: the second-level
numeric segment of a city-level code. -/
def seg71 (kode : String) : Bool := 71 ≤ castInt ((kode.data.drop 3).take 2)

/-- The query constraints shared by `get_city_by_name` and
`get_cities_by_keyword`: case-insensitive substring match of the query
in `nama`, `LENGTH(kode) = 5` and second-level segment `>= 71`. -/
def rowCityBase (q : String) (r : Row) : Bool :=
  hasSub (upperS q).data (upperS r.nama).data &&
  decide (r.kode.length = 5) && seg71 r.kode

/-- The full row filter of `get_city_by_name` (`nama LIKE 'KOTA %'`
only). -/
def eligName (q : String) (r : Row) : Bool :=
  rowCityBase q r && isPre "KOTA ".data r.nama.data

/-- The full row filter of `get_cities_by_keyword`
(`nama LIKE 'KOTA %' OR nama LIKE 'KAB. %'`). -/
def eligKeyword (q : String) (r : Row) : Bool :=
  rowCityBase q r &&
  (isPre "KOTA ".data r.nama.data || isPre "KAB. ".data r.nama.data)

/-- The `query_kel` of each query: first row with
`kode LIKE '<kode_kota>.%' AND LENGTH(kode) >= 13` in scan order
(`LIMIT 1` with no `ORDER BY`). -/
def first_kelurahan (table : List Row) (kode_kota : String) : Option Row :=
  table.find? (fun r =>
    isPre (kode_kota ++ ".").data r.kode.data && decide (13 ≤ r.kode.length))

/-- Python `s.replace(pat, '')`: remove every non-overlapping
occurrence, scanning left to right.  The fuel argument (instantiated
with the string length) makes the recursion structural; each step
either consumes one character or a whole non-empty occurrence of the
pattern, so the fuel never runs out for the non-empty patterns
(`'KAB. '`, `'KOTA '`) used here. -/
def replaceAllFuel (pat : List Char) : Nat → List Char → List Char
  | 0, s => s
  | _ + 1, [] => []
  | fuel + 1, c :: cs =>
    if isPre pat (c :: cs) then
      replaceAllFuel pat fuel ((c :: cs).drop pat.length)
    else c :: replaceAllFuel pat fuel cs

/-- Python `s.replace(pat, '')`. -/
def pyReplace (pat s : String) : String :=
  ⟨replaceAllFuel pat.data s.data.length s.data⟩

/-- ASCII letter test. -/
def isAsciiAlpha (c : Char) : Bool :=
  ('a' ≤ c && c ≤ 'z') || ('A' ≤ c && c ≤ 'Z')

/-- Python `str.title()` on ASCII data: the state is whether the
previous character was a letter. -/
def titleAux : Bool → List Char → List Char
  | _, [] => []
  | prevAlpha, c :: cs =>
    (if isAsciiAlpha c then
      (if prevAlpha then asciiLower c else asciiUpper c)
     else c) :: titleAux (isAsciiAlpha c) cs

/-- Python `str.title()`. -/
def titleS (s : String) : String := ⟨titleAux false s.data⟩

/-- Model of `nama.replace('KAB. ', '').replace('KOTA ', '').title()`. -/
def cityDisplayName (nama : String) : String :=
  titleS (pyReplace "KOTA " (pyReplace "KAB. " nama))

/-- Build the returned city dict for a matched city-level row: look up
its first kelurahan descendant, derive the timezone from that
descendant's code (`none` when the row has no level-13 descendant). -/
def buildCity (table : List Row) (r : Row) : Option City :=
  (first_kelurahan table r.kode).map (fun kel =>
    { name := cityDisplayName r.nama,
      code := kel.kode,
      timezone := (get_timezone_info kel.kode).1,
      timezone_offset := (get_timezone_info kel.kode).2 })

/-- Model of `WilayahDatabase.get_city_by_name`: first matching row in scan
order (`LIMIT 1` with no `ORDER BY`), then the kelurahan lookup. -/
def get_city_by_name (table : List Row) (city_name : String) : Option City :=
  match table.find? (eligName city_name) with
  | some r => buildCity table r
  | none => none

/-- The `ORDER BY nama` relation. -/
def rowLe (a b : Row) : Prop := a.nama ≤ b.nama

instance : DecidableRel rowLe :=
  fun a b => inferInstanceAs (Decidable (a.nama ≤ b.nama))

instance : IsTotal Row rowLe := ⟨fun a b => le_total a.nama b.nama⟩

instance : IsTrans Row rowLe := ⟨fun _ _ _ h1 h2 => le_trans h1 h2⟩

/-- Model of `WilayahDatabase.get_cities_by_keyword`: `SELECT DISTINCT` rows
passing the keyword filter, ordered by `nama`, capped at `limit`, each
turned into a city dict (rows without a kelurahan descendant are
skipped by the Python loop). -/
def get_cities_by_keyword (table : List Row) (keyword : String)
    (limit : Nat) : List City :=
  ((((table.filter (eligKeyword keyword)).dedup).insertionSort
      rowLe).take limit).filterMap (buildCity table)

/-- Province codes mapped to a zone, in map order
(`[code for code, (tz, _) in self.timezone_mapping.items() if tz == timezone]`). -/
def provCodesFor (tz : String) : List String :=
  (timezone_mapping.filter (fun e => e.2.1 = tz)).map (fun e => e.1)

/-- The per-province city query of `get_cities_by_timezone`:
`kode LIKE '<prov>.%' AND LENGTH(kode) = 5 AND segment >= 71 AND
nama LIKE 'KOTA %'`. -/
def cityFilterProv (prov : String) (r : Row) : Bool :=
  isPre (prov ++ ".").data r.kode.data && decide (r.kode.length = 5) &&
  seg71 r.kode && isPre "KOTA ".data r.nama.data

/-- One province's city list inside `get_cities_by_timezone`: the
matching city rows ordered by `nama`, each resolved to a city dict
through its first kelurahan descendant. -/
def provCities (table : List Row) (prov : String) : List City :=
  ((table.filter (cityFilterProv prov)).insertionSort rowLe).filterMap
    (buildCity table)

/-- Model of `WilayahDatabase.get_cities_by_timezone`: the per-province city
lists of the zone, concatenated in map order. -/
def get_cities_by_timezone (table : List Row) (tz : String) : List City :=
  (provCodesFor tz).flatMap (provCities table)

/-- The candidate pool of `get_random_cities`: one zone, or the three
zones concatenated when no zone is requested. -/
def city_pool (table : List Row) (tzOpt : Option String) : List City :=
  match tzOpt with
  | some tz => get_cities_by_timezone table tz
  | none =>
    get_cities_by_timezone table "WIB" ++
    get_cities_by_timezone table "WITA" ++
    get_cities_by_timezone table "WIT"

/-- Model of `WilayahDatabase.get_random_cities`: the whole pool when it has at
most `count` members, otherwise `random.sample(cities, count)`,
modelled by the oracle `sample`. -/
def get_random_cities (sample : List City → Nat → List City)
    (table : List Row) (count : Nat) (tzOpt : Option String) : List City :=
  if (city_pool table tzOpt).length ≤ count then city_pool table tzOpt
  else sample (city_pool table tzOpt) count

/-! ### Datetime parsing (`datetime.strptime(s, '%Y-%m-%d %H:%M:%S')`)

The program always feeds zero-padded timestamps of the exact shape
`YYYY-MM-DD HH:MM:SS`; the parser below accepts exactly that shape with
calendar-valid fields, as `strptime` does (CPython additionally
tolerates un-padded fields, which nothing in this repository relies
on). -/

/-- Parsed components of a `%Y-%m-%d %H:%M:%S` timestamp. -/
structure DT where
  year : Nat
  month : Nat
  day : Nat
  hour : Nat
  minute : Nat
  second : Nat
deriving DecidableEq, Repr

/-- Gregorian leap-year rule. -/
def isLeap (y : Nat) : Bool := (y % 4 = 0 && y % 100 ≠ 0) || y % 400 = 0

/-- Number of days of month `m` in year `y`. -/
def daysInMonth (y m : Nat) : Nat :=
  if m = 2 then (if isLeap y then 29 else 28)
  else if m = 4 ∨ m = 6 ∨ m = 9 ∨ m = 11 then 30
  else 31

/-- Strict parse of `YYYY-MM-DD HH:MM:SS`; `none` models the
`ValueError` that `datetime.strptime` raises on malformed input. -/
def parseDT (s : String) : Option DT :=
  match s.data with
  | [y1, y2, y3, y4, '-', m1, m2, '-', d1, d2, ' ',
     h1, h2, ':', n1, n2, ':', e1, e2] => do
    let y ← allDigitsVal [y1, y2, y3, y4]
    let mo ← allDigitsVal [m1, m2]
    let d ← allDigitsVal [d1, d2]
    let h ← allDigitsVal [h1, h2]
    let mi ← allDigitsVal [n1, n2]
    let se ← allDigitsVal [e1, e2]
    if 1 ≤ y ∧ 1 ≤ mo ∧ mo ≤ 12 ∧ 1 ≤ d ∧ d ≤ daysInMonth y mo ∧
        h ≤ 23 ∧ mi ≤ 59 ∧ se ≤ 59 then
      some ⟨y, mo, d, h, mi, se⟩
    else none
  | _ => none

/-! ### Weather fetcher: `bmkg_api.py`, `find_weather_at_time` -/

/-- One raw forecast entry.  The loop only reads
`weather.get('local_datetime', '')` (a missing key yields `''`, which
fails to parse); the remaining JSON fields are opaque here and are
summarized by `payload`, which also serves to tell entries apart. -/
structure Entry where
  local_datetime : Option String
  payload : Nat
deriving DecidableEq, Repr

/-- The local hour of an entry, when its `local_datetime` is present
and parseable. -/
def entryHour (e : Entry) : Option Nat :=
  (parseDT (e.local_datetime.getD "")).map (fun dt => dt.hour)

/-- Model of `abs(local_dt.hour - target_hour)` for a parseable entry. -/
def entryDiff (target : Int) (e : Entry) : Option Nat :=
  (entryHour e).map (fun h => (Int.ofNat h - target).natAbs)

/-- Comparison `d < m` where `m = none` stands for Python's `float('inf')`. -/
def ltO (d : Nat) : Option Nat → Bool
  | none => true
  | some m => d < m

/-- The scan loop of `find_weather_at_time`: `closest`/`minDiff` are
the `closest_weather`/`min_diff` accumulators; an unparseable entry is
skipped by the `except (ValueError, KeyError): continue` arm; an exact
match (`hour_diff == 0`) breaks out of the loop. -/
def findAux (target : Int) : List Entry → Option Entry → Option Nat → Option Entry
  | [], closest, _ => closest
  | e :: rest, closest, minDiff =>
    match entryDiff target e with
    | none => findAux target rest closest minDiff
    | some d =>
      let closest2 := if ltO d minDiff then some e else closest
      let minDiff2 := if ltO d minDiff then some d else minDiff
      if d = 0 then closest2 else findAux target rest closest2 minDiff2

/-- Model of `BMKGWeatherAPI.find_weather_at_time`: `None` on an empty list,
otherwise the scan loop started with empty accumulators. -/
def find_weather_at_time (weather_data : List Entry) (target_hour : Int) :
    Option Entry :=
  match weather_data with
  | [] => none
  | _ => findAux target_hour weather_data none none

/-- Smallest `entryDiff` over a list (`none` when no entry parses). -/
def bestDiff (target : Int) : List Entry → Option Nat
  | [] => none
  | e :: rest =>
    match entryDiff target e, bestDiff target rest with
    | none, b => b
    | some d, none => some d
    | some d, some b => some (min d b)

/-- First entry of the list achieving the smallest `entryDiff`. -/
def firstMin (target : Int) : List Entry → Option Entry
  | [] => none
  | e :: rest =>
    match entryDiff target e with
    | none => firstMin target rest
    | some d =>
      match bestDiff target rest with
      | none => some e
      | some b => if b < d then firstMin target rest else some e

/-- Closed form the scan loop is proved equal to. -/
def findSpec (target : Int) (l : List Entry) (c : Option Entry)
    (m : Option Nat) : Option Entry :=
  match bestDiff target l with
  | none => c
  | some b => if ltO b m then firstMin target l else c

/-! ### Article template engine: `template_generator.py` -/

/-- Indonesian day names, `WeatherArticleGenerator.get_day_name`'s
`days` dict (`datetime.weekday()`: Monday = 0). -/
def dayName (w : Nat) : String :=
  match w with
  | 0 => "Senin"
  | 1 => "Selasa"
  | 2 => "Rabu"
  | 3 => "Kamis"
  | 4 => "Jumat"
  | 5 => "Sabtu"
  | _ => "Minggu"

/-- Indonesian month names (`months` dict of `get_formatted_date`). -/
def monthName (m : Nat) : String :=
  match m with
  | 1 => "Januari" | 2 => "Februari" | 3 => "Maret" | 4 => "April"
  | 5 => "Mei" | 6 => "Juni" | 7 => "Juli" | 8 => "Agustus"
  | 9 => "September" | 10 => "Oktober" | 11 => "November" | _ => "Desember"

/-- Days of months `1 .. m-1` of year `y`. -/
def cumDays (y m : Nat) : Nat :=
  (List.range (m - 1)).foldl (fun a i => a + daysInMonth y (i + 1)) 0

/-- Proleptic-Gregorian ordinal of a date (`0001-01-01` has ordinal
`1`, as in Python's `datetime.toordinal`). -/
def toOrdinal (y m d : Nat) : Nat :=
  365 * (y - 1) + ((y - 1) / 4 - (y - 1) / 100 + (y - 1) / 400) +
    cumDays y m + d

/-- Model of `datetime.weekday()`: Monday = 0.  `0001-01-01` was a Monday. -/
def weekday (y m d : Nat) : Nat := (toOrdinal y m d - 1) % 7

/-- Model of `WeatherArticleGenerator.get_day_name`: Indonesian weekday of a
`YYYY-MM-DD HH:MM:SS` string, `"Senin"` when parsing fails (the bare
`except:` arm). -/
def get_day_name (date_str : String) : String :=
  match parseDT date_str with
  | some dt => dayName (weekday dt.year dt.month dt.day)
  | none => "Senin"

/-- Model of `WeatherArticleGenerator.get_formatted_date`: `D NamaBulan YYYY`,
`"1 Januari 2026"` when parsing fails. -/
def get_formatted_date (date_str : String) : String :=
  match parseDT date_str with
  | some dt =>
    Nat.repr dt.day ++ " " ++ monthName dt.month ++ " " ++ Nat.repr dt.year
  | none => "1 Januari 2026"

/-- Model of `WeatherArticleGenerator.format_time`: `f"{hour:02d}.00"`. -/
def format_time (hour : Nat) : String :=
  (if hour < 10 then "0" ++ Nat.repr hour else Nat.repr hour) ++ ".00"

/-- The per-city weather dict consumed by the template engine, holding
exactly the keys `generate_article` reads.  The numeric fields arrive
as JSON numbers; the program's `int(round(x))` is the identity on the
integral values modelled here. -/
structure CityWeather where
  datetime : String
  temperature : Int
  humidity : Int
  weather : String
  target_hour : Nat
  timezone : String
deriving DecidableEq, Repr

/-- Model of `str(int(round(x)))` on an integral value. -/
def intStr (i : Int) : String := toString i

/-- The body of the f-string template of
`WeatherArticleGenerator.generate_article`, with each `{...}`
interpolation turned into a `++`. -/
def articleText (n1 : String) (c1 : CityWeather) (n2 : String)
    (c2 : CityWeather) (n3 : String) (c3 : CityWeather) (n4 : String)
    (c4 : CityWeather) : String :=
  "Badan Meteorologi, Klimatologi dan Geofisika (BMKG) memprakirakan cuaca di Kota "
  ++ n1 ++ " " ++ lowerS c1.weather ++ " pada hari "
  ++ get_day_name c1.datetime ++ ", " ++ get_formatted_date c1.datetime
  ++ ". Kondisi ini berbeda dengan beberapa daerah lainnya di Indonesia yang mengalami cuaca berbeda-beda.\n\nBerdasarkan pantauan di laman resmi BMKG.go.id pada pukul "
  ++ format_time c1.target_hour ++ " " ++ c1.timezone
  ++ ", suhu udara di Kota " ++ n1 ++ " berkisar "
  ++ intStr c1.temperature
  ++ " derajat Celcius. Sementara, tingkat kelembapan udara berada pada "
  ++ intStr c1.humidity
  ++ " persen.\n\nBerbeda dengan kota " ++ n1 ++ ", " ++ n2
  ++ " pada pukul " ++ format_time c2.target_hour ++ " " ++ c2.timezone
  ++ " diprakirakan " ++ lowerS c2.weather
  ++ " dengan suhu udara berkisar " ++ intStr c2.temperature
  ++ " derajat Celcius. Sementara, untuk tingkat kelembapan udara berada pada angka "
  ++ intStr c2.humidity
  ++ " persen.\n\nKota " ++ n3 ++ " diprakirakan terjadi "
  ++ lowerS c3.weather ++ " pada pukul " ++ format_time c3.target_hour
  ++ " " ++ c3.timezone ++ ". Suhu udara kota ini berkisar "
  ++ intStr c3.temperature
  ++ " derajat Celcius. Tingkat kelembapan udaranya berada pada angka "
  ++ intStr c3.humidity
  ++ " persen.\n\nBerbeda dengan kota-kota yang telah dilaporkan, pada pukul "
  ++ format_time c4.target_hour ++ " " ++ c4.timezone ++ " di kota "
  ++ n4 ++ " diprakirakan " ++ lowerS c4.weather
  ++ ". Suhu udara di kota tersebut berkisar " ++ intStr c4.temperature
  ++ " derajat Celcius, dengan tingkat kelembapan udara berada pada angka antara "
  ++ intStr c4.humidity
  ++ " persen.\n\nBMKG juga mengingatkan bahwa kondisi cuaca dapat berubah sewaktu-waktu. Masyarakat diimbau untuk selalu memantau informasi terkini dari sumber resmi dan mempersiapkan diri sesuai dengan kondisi cuaca di lokasi masing-masing. (*)"

/-- Model of `WeatherArticleGenerator.generate_article`: `ValueError` (modelled
as `Except.error`) on fewer than 4 entries, otherwise the template
filled with the first four map entries in iteration order. -/
def generate_article (weather_data : List (String × CityWeather)) :
    Except String String :=
  if weather_data.length < 4 then
    Except.error "Minimal 4 kota diperlukan untuk generate artikel"
  else
    match weather_data with
    | (n1, c1) :: (n2, c2) :: (n3, c3) :: (n4, c4) :: _ =>
      Except.ok (articleText n1 c1 n2 c2 n3 c3 n4 c4)
    | _ => Except.error "Minimal 4 kota diperlukan untuk generate artikel"

/-! ### City selector: `city_selector_db.py` -/

/-- The value stored per selected city by `CitySelector`
(`{'code': ..., 'timezone': ..., 'timezone_offset': ...}`). -/
structure CityInfo where
  code : String
  timezone : String
  timezone_offset : Nat
deriving DecidableEq, Repr

/-- Python dict assignment `m[k] = v` on an insertion-ordered dict:
overwrite in place if the key exists, else append. -/
def dictInsert (m : List (String × CityInfo)) (k : String) (v : CityInfo) :
    List (String × CityInfo) :=
  if m.any (fun p => p.1 = k) then
    m.map (fun p => if p.1 = k then (k, v) else p)
  else m ++ [(k, v)]

/-- One `for city in cities_x:` loop body of `select_random_cities`:
store each drawn city under its name. -/
def insertCities (m : List (String × CityInfo)) (cities : List City) :
    List (String × CityInfo) :=
  cities.foldl
    (fun m c => dictInsert m c.name ⟨c.code, c.timezone, c.timezone_offset⟩) m

/-- Model of `CitySelector.select_random_cities`.  `getRandom count zone` is the
oracle for `self.db.get_random_cities(count, zone)`; `state` is the
prior `self.selected_cities`, which the method clears before selecting
(`self.selected_cities = {}`), so the result never depends on it.  The
Python guards `if wib_count and wib_count > 0:` treat both `None` and
`0` as "skip this zone". -/
def select_random_cities (getRandom : Nat → String → List City)
    (state : List (String × CityInfo)) (total_cities : Nat)
    (wib_count wita_count wit_count : Option Nat) :
    List (String × CityInfo) :=
  let _ := state
  let counts :=
    match wib_count, wita_count, wit_count with
    | none, none, none =>
      (total_cities / 2, total_cities / 3,
       total_cities - total_cities / 2 - total_cities / 3)
    | _, _, _ => (wib_count.getD 0, wita_count.getD 0, wit_count.getD 0)
  let sel1 := if counts.1 > 0 then insertCities [] (getRandom counts.1 "WIB")
    else []
  let sel2 := if counts.2.1 > 0 then
    insertCities sel1 (getRandom counts.2.1 "WITA") else sel1
  if counts.2.2 > 0 then insertCities sel2 (getRandom counts.2.2 "WIT")
  else sel2

/-! ### Multi-city fetch with auto-replacement: `fetch_all_cities_weather`

HTTP and randomness are oracles: `fetch code` models
`api.get_city_weather(code, 6, tz_offset)` (`none` = no data, the
observation dict itself is summarized by an opaque id), and
`draw k tz` models the `k`-th call of
`selector.db.get_random_cities(1, tz)` (calls are numbered so that
successive draws may differ). -/

/-- One slot of the result map: `{**weather_data, 'timezone': ...,
'target_hour': DEFAULT_TARGET_HOUR}`. -/
structure FetchedWeather where
  obs : Nat
  timezone : String
  target_hour : Nat
deriving DecidableEq, Repr

/-- First pass of `fetch_all_cities_weather`: the result map holds one
slot per config whose fetch succeeded, in config order. -/
def phase1Results (fetch : String → Option Nat)
    (city_configs : List (String × CityInfo)) :
    List (String × FetchedWeather) :=
  city_configs.filterMap (fun p =>
    (fetch p.2.code).map (fun w => (p.1, ⟨w, p.2.timezone, 6⟩)))

/-- First pass, failure side: `failed_cities` keeps the configs whose
fetch returned no data, in config order. -/
def phase1Failed (fetch : String → Option Nat)
    (city_configs : List (String × CityInfo)) :
    List (String × CityInfo) :=
  city_configs.filter (fun p => (fetch p.2.code).isNone)

/-- The `for attempt in range(max_replacement_tries)` loop for one
failed city.  State: `(attempted_cities, results, draw counter)`.
Each attempt draws one candidate (`break` when the pool is empty),
skips it when already attempted (`continue`), otherwise marks it
attempted and fetches it (`break` on success, next attempt on
failure). -/
def replaceLoop (fetch : String → Option Nat)
    (draw : Nat → String → List City) (tz : String) :
    Nat → List String × List (String × FetchedWeather) × Nat →
      List String × List (String × FetchedWeather) × Nat
  | 0, st => st
  | tries + 1, (attempted, results, k) =>
    match draw k tz with
    | [] => (attempted, results, k + 1)
    | r :: _ =>
      if r.name ∈ attempted then
        replaceLoop fetch draw tz tries (attempted, results, k + 1)
      else
        match fetch r.code with
        | some w =>
          (attempted ++ [r.name], results ++ [(r.name, ⟨w, tz, 6⟩)], k + 1)
        | none =>
          replaceLoop fetch draw tz tries
            (attempted ++ [r.name], results, k + 1)

/-- Model of `fetch_all_cities_weather(city_configs, auto_replace_failed)`:
phase 1 fetches every configured city; when auto-replacement is on and
some failures occurred, each failed city gets up to 5 replacement
draws from its own timezone.  Returns the result map together with the
number of `get_random_cities` calls made. -/
def fetch_all_cities_weather (fetch : String → Option Nat)
    (draw : Nat → String → List City)
    (city_configs : List (String × CityInfo))
    (auto_replace_failed : Bool) :
    List (String × FetchedWeather) × Nat :=
  if auto_replace_failed ∧ phase1Failed fetch city_configs ≠ [] then
    ((phase1Failed fetch city_configs).foldl
        (fun st fc => replaceLoop fetch draw fc.2.timezone 5 st)
        (city_configs.map Prod.fst, phase1Results fetch city_configs, 0)).2
  else (phase1Results fetch city_configs, 0)

/-! ### AI headline enhancer: `ai_generator.py`, `generate_title`

The Gemini HTTP ladder (`_generate_content`) and `dateutil.parser`
are external; they enter as oracles `ai : String → Option String`
(`none` = every key/model failed) and `pdate : String → Option DT`. -/

/-- The `common_cities` list of `GeminiAIGenerator.generate_title`. -/
def common_cities : List String :=
  ["jakarta", "surabaya", "bandung", "medan", "semarang",
   "makassar", "palembang", "tangerang", "depok", "bogor",
   "yogyakarta", "malang", "solo", "batam", "pekanbaru"]

/-- The `date_str` computation of `generate_title`: `"hari ini"` when
the first city carries no datetime, the Indonesian date on a parse
success, and a propagated `ParserError` on failure (nothing catches
it inside `generate_title`). -/
def titleDateStr (pdate : String → Option DT) (c0 : CityWeather) :
    Except String String :=
  if c0.datetime = "" then Except.ok "hari ini"
  else
    match pdate c0.datetime with
    | some dt =>
      Except.ok
        (Nat.repr dt.day ++ " " ++ monthName dt.month ++ " " ++
          Nat.repr dt.year)
    | none => Except.error "dateutil.parser.ParserError"

/-- The `city_summaries` block: one `City: weather (T°C)` line per
entry, joined by newlines. -/
def titleSummary (wd : List (String × CityWeather)) : String :=
  String.intercalate "\n"
    (wd.map (fun p =>
      p.1 ++ ": " ++ p.2.weather ++ " (" ++ intStr p.2.temperature ++ "°C)"))

/-- The prompt f-string of `generate_title`, with the `{date_str}` and
`{summary}` interpolations turned into `++`. -/
def titlePrompt (date_str summary : String) : String :=
  "Buatkan 1 judul berita cuaca nasional yang MENARIK, INFORMATIF, dan SEO-friendly untuk portal berita Indonesia.\nData cuaca untuk tanggal "
  ++ date_str ++ ":\n" ++ summary
  ++ "\nKETENTUAN WAJIB:\n\nFormat HARUS: \"BMKG: Cuaca Kota [NAMA_KOTA] "
  ++ date_str
  ++ " Diprakirakan [KONDISI], [KOTA_LAIN] [KONDISI]\"\nWAJIB sertakan \"Cuaca Kota\" dan tanggal \""
  ++ date_str
  ++ "\" di awal setelah \"BMKG:\"\nPilih 1 kota UTAMA yang paling menarik untuk judul (kota dengan cuaca EKSTREM atau PENTING)\nSebutkan 1-2 kota lainnya dengan kondisi cuaca yang KONTRAS/berbeda\nPRIORITAS pemilihan kota UTAMA:\n\nKota dengan HUJAN LEBAT/PETIR (prioritas tertinggi)\nKota dengan cuaca EKSTREM (panas terik, kabut tebal, angin kencang)\nKota BESAR/PENTING (ibukota provinsi, kota wisata)\nKota dengan cuaca yang BERBEDA dari lainnya\n\n\nJANGAN sebutkan semua kota! Pilih yang PALING MENARIK saja\nPENTING: HANYA gunakan nama kota yang TERCANTUM di data cuaca, JANGAN tambahkan kota lain\nGunakan kata kerja AKTIF: Waspada, Diprakirakan, Prakirakan, Ingatkan\nBahasa jurnalistik formal, ringkas, tidak clickbait\nPanjang maksimal 20 kata\nJANGAN gunakan tanda petik (\")\n\nCONTOH FORMAT YANG BENAR:\n\n\"BMKG: Cuaca Kota Banda Aceh "
  ++ date_str
  ++ " Diprakirakan Cerah Berawan, Sejumlah Kota Lainnya Hujan Ringan Hingga Petir\"\n\"BMKG: Cuaca Kota Jakarta "
  ++ date_str
  ++ " Diprakirakan Hujan Petir, Denpasar Cerah Berawan\"\n\"BMKG: Cuaca Kota Kupang "
  ++ date_str
  ++ " Diprakirakan Hujan Lebat, Banda Aceh Cerah\"\n\nOUTPUT:\n\nHANYA 1 judul berita\nTANPA bullet, nomor, atau penjelasan tambahan\nWAJIB ikuti format di atas"

/-- Model of `GeminiAIGenerator.generate_title`.  Returns `Except.ok none` when
the AI is unavailable, failed, or produced a title naming a common
large city absent from the input set; `Except.ok (some title)` on an
accepted title (note that an empty returned title is falsy in Python
and skips validation); `Except.error` models uncaught exceptions
(`cities[0]` on an empty map, `dateutil` parse failure). -/
def generate_title (aiAvailable : Bool) (ai : String → Option String)
    (pdate : String → Option DT) (wd : List (String × CityWeather)) :
    Except String (Option String) :=
  if aiAvailable then
    match wd with
    | [] => Except.error "IndexError: cities[0]"
    | (_, c0) :: _ =>
      match titleDateStr pdate c0 with
      | Except.error e => Except.error e
      | Except.ok date_str =>
        match ai (titlePrompt date_str (titleSummary wd)) with
        | none => Except.ok none
        | some title =>
          if title = "" then Except.ok (some title)
          else if common_cities.any (fun city =>
              hasSub city.data (lowerS title).data &&
              !((wd.map Prod.fst).contains (capitalizeS city))) then
            Except.ok none
          else Except.ok (some title)
  else Except.ok none

/-- The concrete table for the C5 witness: one WIB city row and its
kelurahan descendant, with distinct codes. -/
def exTableC5 : List Row :=
  [⟨"11.71", "KOTA BANDA ACEH"⟩, ⟨"11.71.01.1001", "GAMPONG JAWA"⟩]

/-- The concrete table used to refute the same-filters part of C3: a
regency-level row `KAB. BOGOR` with a city-shaped code and its
kelurahan descendant. -/
def exTableC3 : List Row :=
  [⟨"32.71", "KAB. BOGOR"⟩, ⟨"32.71.01.1001", "BOGOR SELATAN"⟩]

/-- The concrete four-city weather map used to refute the
once-per-name part of C2: names `Alpha`..`Delta`, none occurring in
the fixed template text or in any field value. -/
def exWd4 : List (String × CityWeather) :=
  [("Alpha", ⟨"2024-01-15 06:00:00", 28, 80, "Cerah", 6, "WIB"⟩),
   ("Beta", ⟨"2024-01-15 06:00:00", 30, 70, "Hujan Ringan", 6, "WITA"⟩),
   ("Gamma", ⟨"2024-01-15 06:00:00", 26, 90, "Berawan", 6, "WIT"⟩),
   ("Delta", ⟨"2024-01-15 06:00:00", 31, 60, "Cerah Berawan", 6, "WIB"⟩)]

/-- The article rendered for `exWd4`. -/
def exArticle : String :=
  match generate_article exWd4 with
  | Except.ok s => s
  | Except.error e => e

end Bmkg

open Bmkg

/-- C7: for every code string, `get_timezone_info` returns one of
exactly the three pairs `(WIB,7)`, `(WITA,8)`, `(WIT,9)`; when the
leading dot-delimited segment of the code has no entry in the static
province map it returns `(WIB,7)`.  (The function is a pure Lean
function of its argument, matching the purity part of the claim.) -/
theorem C7_get_timezone_info_range_and_default :
    (∀ kode : String,
        get_timezone_info kode ∈ [("WIB", 7), ("WITA", 8), ("WIT", 9)]) ∧
    (∀ kode : String,
        splitHeadDot kode ∉ timezone_mapping.map (fun e => e.1) →
        get_timezone_info kode = ("WIB", 7)) := by
  constructor
  · intro kode
    unfold get_timezone_info
    cases h : timezone_mapping.find? (fun e => e.1 = splitHeadDot kode) with
    | none => simp
    | some e =>
      have hmem : e ∈ timezone_mapping := List.mem_of_find?_eq_some h
      have hall : ∀ x ∈ timezone_mapping,
          x.2 ∈ [(("WIB" : String), (7 : Nat)), ("WITA", 8), ("WIT", 9)] := by
        decide
      simpa using hall e hmem
  · intro kode hk
    unfold get_timezone_info
    have : timezone_mapping.find? (fun e => e.1 = splitHeadDot kode) = none := by
      rw [List.find?_eq_none]
      intro x hx hdec
      exact hk (by
        simp only [List.mem_map]
        exact ⟨x, hx, of_decide_eq_true hdec⟩)
    rw [this]

/-- The scan loop of `find_weather_at_time` equals its closed form:
it keeps the running closest entry unless the remaining list contains
an entry strictly closer than the running minimum, in which case it
returns the first entry of the list achieving the list's best
difference. -/
theorem findAux_eq (t : Int) :
    ∀ (l : List Entry) (c : Option Entry) (m : Option Nat),
      findAux t l c m = findSpec t l c m := by
  intro l
  induction l with
  | nil => intro c m; rfl
  | cons e rest ih =>
    intro c m
    cases he : entryDiff t e with
    | none =>
      simp only [findAux, he]
      rw [ih]
      simp only [findSpec, bestDiff, firstMin, he]
    | some d =>
      simp only [findAux, he]
      cases m with
      | none =>
        simp only [ltO, if_true]
        by_cases hd : d = 0
        · subst hd
          simp only [if_pos rfl]
          cases hbr : bestDiff t rest with
          | none => simp [findSpec, bestDiff, firstMin, he, hbr, ltO]
          | some br =>
            simp [findSpec, bestDiff, firstMin, he, hbr, ltO, Nat.zero_min]
        · simp only [if_neg hd]
          rw [ih]
          cases hbr : bestDiff t rest with
          | none => simp [findSpec, bestDiff, firstMin, he, hbr, ltO]
          | some br =>
            by_cases hbd : br < d
            · simp [findSpec, bestDiff, firstMin, he, hbr, ltO, hbd,
                Nat.min_eq_right (Nat.le_of_lt hbd)]
            · simp [findSpec, bestDiff, firstMin, he, hbr, ltO, hbd,
                Nat.min_eq_left (Nat.le_of_not_lt hbd)]
      | some mv =>
        simp only [ltO, decide_eq_true_eq]
        by_cases hdm : d < mv
        · simp only [if_pos hdm]
          by_cases hd : d = 0
          · subst hd
            simp only [if_pos rfl]
            cases hbr : bestDiff t rest with
            | none => simp [findSpec, bestDiff, firstMin, he, hbr, ltO, hdm]
            | some br =>
              simp [findSpec, bestDiff, firstMin, he, hbr, ltO,
                Nat.zero_min, hdm]
          · simp only [if_neg hd]
            rw [ih]
            cases hbr : bestDiff t rest with
            | none => simp [findSpec, bestDiff, firstMin, he, hbr, ltO, hdm]
            | some br =>
              have hmm : min d br < mv := by omega
              by_cases hbd : br < d
              · have hbm : br < mv := by omega
                simp [findSpec, bestDiff, firstMin, he, hbr, ltO, hbd, hmm,
                  hdm, hbm, Nat.min_eq_right (Nat.le_of_lt hbd)]
              · simp [findSpec, bestDiff, firstMin, he, hbr, ltO, hbd, hmm,
                  hdm, Nat.min_eq_left (Nat.le_of_not_lt hbd)]
        · simp only [if_neg hdm]
          by_cases hd : d = 0
          · subst hd
            have hmv : mv = 0 := by omega
            subst hmv
            simp only [if_pos rfl]
            cases hbr : bestDiff t rest with
            | none => simp [findSpec, bestDiff, he, hbr, ltO]
            | some br => simp [findSpec, bestDiff, he, hbr, ltO, Nat.zero_min]
          · simp only [if_neg hd]
            rw [ih]
            cases hbr : bestDiff t rest with
            | none => simp [findSpec, bestDiff, he, hbr, ltO, hdm]
            | some br =>
              by_cases hbm : br < mv
              · have h1 : min d br < mv := by omega
                have h2 : br < d := by omega
                simp [findSpec, bestDiff, firstMin, he, hbr, ltO, h1, hbm, h2]
              · have h1 : ¬ min d br < mv := by omega
                simp [findSpec, bestDiff, he, hbr, ltO, h1, hbm]

/-- Lemma: `find_weather_at_time` returns the first entry achieving the best
hour difference, and `none` exactly when no entry parses. -/
theorem find_weather_eq (l : List Entry) (t : Int) :
    find_weather_at_time l t =
      match bestDiff t l with
      | none => none
      | some _ => firstMin t l := by
  cases l with
  | nil => rfl
  | cons e rest =>
    show findAux t (e :: rest) none none = _
    rw [findAux_eq]
    simp only [findSpec]
    cases bestDiff t (e :: rest) with
    | none => rfl
    | some b => simp [ltO]

/-- Lemma: `bestDiff` is `none` exactly when no entry of the list parses. -/
theorem bestDiff_eq_none (t : Int) :
    ∀ l : List Entry, bestDiff t l = none ↔ ∀ x ∈ l, entryDiff t x = none := by
  intro l
  induction l with
  | nil => simp [bestDiff]
  | cons e rest ih =>
    cases he : entryDiff t e with
    | none =>
      simp only [bestDiff, he]
      constructor
      · intro h x hx
        rcases List.mem_cons.1 hx with rfl | hx
        · exact he
        · cases hbr : bestDiff t rest with
          | none => exact (ih.1 hbr) x hx
          | some br => rw [hbr] at h; exact absurd h (by simp)
      · intro h
        exact ih.2 (fun x hx => h x (List.mem_cons_of_mem _ hx))
    | some d =>
      constructor
      · intro h
        simp only [bestDiff, he] at h
        cases hbr : bestDiff t rest <;> rw [hbr] at h <;> simp at h
      · intro h
        exact absurd (h e (List.mem_cons_self _ _)) (by simp [he])

/-- Any parseable entry of the list bounds `bestDiff` from above. -/
theorem bestDiff_le (t : Int) :
    ∀ (l : List Entry) (x : Entry) (dx : Nat), x ∈ l →
      entryDiff t x = some dx → ∃ b, bestDiff t l = some b ∧ b ≤ dx := by
  intro l
  induction l with
  | nil => intro x dx hx; exact absurd hx (List.not_mem_nil x)
  | cons e rest ih =>
    intro x dx hx hdx
    rcases List.mem_cons.1 hx with rfl | hx
    · simp only [bestDiff, hdx]
      cases hbr : bestDiff t rest with
      | none => exact ⟨dx, rfl, Nat.le_refl dx⟩
      | some br => exact ⟨min dx br, rfl, Nat.min_le_left _ _⟩
    · obtain ⟨b, hb, hble⟩ := ih x dx hx hdx
      cases he : entryDiff t e with
      | none => exact ⟨b, by simp [bestDiff, he, hb], hble⟩
      | some d =>
        refine ⟨min d b, by simp [bestDiff, he, hb], ?_⟩
        exact Nat.le_trans (Nat.min_le_right _ _) hble

/-- Decomposition of `firstMin`: it returns an entry achieving the best
difference, and every parseable earlier entry is strictly worse. -/
theorem firstMin_decomp (t : Int) :
    ∀ (l : List Entry) (b : Nat), bestDiff t l = some b →
      ∃ pre e post, firstMin t l = some e ∧ l = pre ++ e :: post ∧
        entryDiff t e = some b ∧
        ∀ x ∈ pre, ∀ dx, entryDiff t x = some dx → b < dx := by
  intro l
  induction l with
  | nil => intro b hb; exact absurd hb (by simp [bestDiff])
  | cons e rest ih =>
    intro b hb
    cases he : entryDiff t e with
    | none =>
      simp only [bestDiff, he] at hb
      obtain ⟨pre, x, post, h1, h2, h3, h4⟩ := ih b hb
      refine ⟨e :: pre, x, post, ?_, by simp [h2], h3, ?_⟩
      · simp only [firstMin, he]; exact h1
      · intro y hy dy hdy
        rcases List.mem_cons.1 hy with rfl | hy
        · rw [he] at hdy; exact absurd hdy (by simp)
        · exact h4 y hy dy hdy
    | some d =>
      cases hbr : bestDiff t rest with
      | none =>
        simp only [bestDiff, he, hbr] at hb
        obtain rfl : d = b := by injection hb
        refine ⟨[], e, rest, ?_, rfl, he, by simp⟩
        simp [firstMin, he, hbr]
      | some br =>
        simp only [bestDiff, he, hbr] at hb
        obtain rfl : min d br = b := by injection hb
        by_cases hbd : br < d
        · rw [Nat.min_eq_right (Nat.le_of_lt hbd)]
          obtain ⟨pre, x, post, h1, h2, h3, h4⟩ := ih br hbr
          refine ⟨e :: pre, x, post, ?_, by simp [h2], h3, ?_⟩
          · simp [firstMin, he, hbr, hbd]; exact h1
          · intro y hy dy hdy
            rcases List.mem_cons.1 hy with rfl | hy
            · rw [he] at hdy
              obtain rfl : d = dy := by injection hdy
              exact hbd
            · exact h4 y hy dy hdy
        · rw [Nat.min_eq_left (Nat.le_of_not_lt hbd)]
          refine ⟨[], e, rest, ?_, rfl, he, by simp⟩
          simp [firstMin, he, hbr, hbd]

/-- When every entry in front of `e` fails to parse or has a nonzero
hour difference and `e` has difference zero, the first minimizer is `e`
no matter what comes after it. -/
theorem firstMin_prefix_zero (t : Int) (e : Entry) (post : List Entry)
    (he : entryDiff t e = some 0) :
    ∀ pre : List Entry, (∀ x ∈ pre, entryDiff t x ≠ some 0) →
      firstMin t (pre ++ e :: post) = some e := by
  intro pre
  induction pre with
  | nil =>
    intro _
    simp only [List.nil_append, firstMin, he]
    cases hbr : bestDiff t post with
    | none => rfl
    | some br => simp
  | cons x pre ih =>
    intro hpre
    have hx0 : entryDiff t x ≠ some 0 := hpre x (List.mem_cons_self _ _)
    have hrest : bestDiff t (pre ++ e :: post) = some 0 := by
      obtain ⟨b, hb, hble⟩ :=
        bestDiff_le t (pre ++ e :: post) e 0 (by simp) he
      rwa [Nat.le_zero.mp hble] at hb
    cases hx : entryDiff t x with
    | none =>
      simp only [List.cons_append, firstMin, hx]
      exact ih (fun y hy => hpre y (List.mem_cons_of_mem _ hy))
    | some dx =>
      have hdx : 0 < dx := by
        rcases Nat.eq_zero_or_pos dx with rfl | h
        · exact absurd hx hx0
        · exact h
      simp only [List.cons_append, firstMin, hx, List.append_eq, hrest,
        if_pos hdx]
      exact ih (fun y hy => hpre y (List.mem_cons_of_mem _ hy))

/-- Witness for C7: the code `"99.01.02.0001"` has province prefix
`"99"`, which is absent from the map, and the default is returned. -/
theorem C7_witness :
    get_timezone_info "99.01.02.0001" = ("WIB", 7) :=
  C7_get_timezone_info_range_and_default.2 "99.01.02.0001" (by decide)

/-- Every import run appends exactly the extracted rows: the table
created by `import_from_sql` has no uniqueness constraint, so nothing
is ever ignored. -/
theorem import_values_length (vals : List Row) :
    ∀ t : List Row, (import_values t vals).length = t.length + vals.length := by
  induction vals with
  | nil => intro t; simp [import_values]
  | cons v vs ih =>
    intro t
    have hstep : insert_or_ignore t v = t ++ [v] := rfl
    simp only [import_values, List.foldl_cons, hstep] at *
    rw [ih (t ++ [v])]
    simp
    omega

/-- C1: running `import_from_sql` a second time on the same dump is NOT
idempotent.  The `CREATE TABLE` statement declares no primary key on
`kode`, so `INSERT OR IGNORE` re-inserts every row: a second run adds
`vals.length` rows, and on the concrete one-row dump
`('11.71', 'KOTA BANDA ACEH')` the row count goes from 1 to 2. -/
theorem C1_import_from_sql_not_idempotent :
    (∀ (db : List Row) (vals : List Row),
        (import_from_sql (some db) vals).length = db.length + vals.length) ∧
    (import_from_sql none [⟨"11.71", "KOTA BANDA ACEH"⟩]).length = 1 ∧
    (import_from_sql
        (some (import_from_sql none [⟨"11.71", "KOTA BANDA ACEH"⟩]))
        [⟨"11.71", "KOTA BANDA ACEH"⟩]).length = 2 := by
  refine ⟨fun db vals => ?_, rfl, rfl⟩
  simpa [import_from_sql] using import_values_length vals db

/-- C4: `find_weather_at_time` on an empty entry list returns `none`;
on a non-empty list (with parseable timestamps, see C10 for the skip
behaviour) it returns the entry whose local hour has the smallest
absolute difference to the target hour, with ties broken in favor of
the earliest-seen entry; and an entry at exactly the target hour is
returned no matter what entries come after it (the loop breaks on an
exact match). -/
theorem C4_find_weather_at_time_nearest :
    (∀ target : Int, find_weather_at_time [] target = none) ∧
    (∀ (l : List Entry) (target : Int), l ≠ [] →
        (∀ x ∈ l, (entryDiff target x).isSome) →
        ∃ (pre post : List Entry) (e : Entry) (de : Nat),
          find_weather_at_time l target = some e ∧
          l = pre ++ e :: post ∧
          entryDiff target e = some de ∧
          (∀ x ∈ l, ∀ dx, entryDiff target x = some dx → de ≤ dx) ∧
          (∀ x ∈ pre, ∀ dx, entryDiff target x = some dx → de < dx)) ∧
    (∀ (pre : List Entry) (e : Entry) (post : List Entry) (target : Int),
        (∀ x ∈ pre, entryDiff target x ≠ some 0) →
        entryDiff target e = some 0 →
        find_weather_at_time (pre ++ e :: post) target = some e) := by
  refine ⟨fun _ => rfl, ?_, ?_⟩
  · intro l target hne hall
    obtain ⟨x, hx⟩ : ∃ x, x ∈ l := by
      cases l with
      | nil => exact absurd rfl hne
      | cons a l => exact ⟨a, List.mem_cons_self _ _⟩
    obtain ⟨dx, hdx⟩ := Option.isSome_iff_exists.mp (hall x hx)
    obtain ⟨b, hbb, _⟩ := bestDiff_le target l x dx hx hdx
    obtain ⟨pre, e, post, h1, h2, h3, h4⟩ := firstMin_decomp target l b hbb
    refine ⟨pre, post, e, b, ?_, h2, h3, ?_, h4⟩
    · rw [find_weather_eq, hbb]; exact h1
    · intro y hy dy hdy
      obtain ⟨b2, hb2, hble2⟩ := bestDiff_le target l y dy hy hdy
      rw [hbb] at hb2
      injection hb2 with hb2
      omega
  · intro pre e post target hpre he
    have hb : bestDiff target (pre ++ e :: post) = some 0 := by
      obtain ⟨b, hb, hble⟩ :=
        bestDiff_le target (pre ++ e :: post) e 0 (by simp) he
      rwa [Nat.le_zero.mp hble] at hb
    have hne : pre ++ e :: post ≠ [] := by
      cases pre <;> simp
    rw [find_weather_eq, hb]
    exact firstMin_prefix_zero target e post he pre hpre

/-- Witness for C4: on the list with local hours `[3, 6, 6]` and target
hour `6`, the second entry (payload 2) is returned: the hour-3 entry is
strictly worse and the loop stops at the first exact match, never
preferring the sentinel hour-6 entry with payload 3. -/
theorem C4_witness :
    find_weather_at_time
      [⟨some "2024-01-15 03:00:00", 1⟩,
       ⟨some "2024-01-15 06:00:00", 2⟩,
       ⟨some "2024-01-15 06:00:00", 3⟩] 6 =
      some ⟨some "2024-01-15 06:00:00", 2⟩ :=
  C4_find_weather_at_time_nearest.2.2
    [⟨some "2024-01-15 03:00:00", 1⟩]
    ⟨some "2024-01-15 06:00:00", 2⟩
    [⟨some "2024-01-15 06:00:00", 3⟩] 6
    (by decide) (by decide)

/-- C10: `find_weather_at_time` silently skips entries whose
`local_datetime` is missing (the `dict.get` default `''`) or
unparseable: a returned entry always has a parseable `local_datetime`,
and a non-empty list none of whose entries parse yields `none`. -/
theorem C10_find_weather_at_time_skips_unparseable :
    (∀ (l : List Entry) (target : Int) (e : Entry),
        find_weather_at_time l target = some e →
        (parseDT (e.local_datetime.getD "")).isSome) ∧
    (∀ (l : List Entry) (target : Int),
        (∀ x ∈ l, parseDT (x.local_datetime.getD "") = none) →
        find_weather_at_time l target = none) := by
  constructor
  · intro l target e h
    rw [find_weather_eq] at h
    cases hbb : bestDiff target l with
    | none => rw [hbb] at h; exact absurd h (by simp)
    | some b =>
      rw [hbb] at h
      obtain ⟨pre, e0, post, h1, h2, h3, h4⟩ := firstMin_decomp target l b hbb
      rw [h1] at h
      injection h with h
      subst h
      unfold entryDiff entryHour at h3
      cases hp : parseDT (e0.local_datetime.getD "") with
      | none => rw [hp] at h3; exact absurd h3 (by simp)
      | some dt => simp
  · intro l target hall
    have hb : bestDiff target l = none := by
      rw [bestDiff_eq_none]
      intro x hx
      unfold entryDiff entryHour
      rw [hall x hx]
      rfl
    rw [find_weather_eq, hb]

/-- Witness for C10: a two-entry list whose timestamps are a missing
field and the unparseable string `"not-a-date"` yields `none` even
though the list is non-empty. -/
theorem C10_witness :
    find_weather_at_time [⟨none, 0⟩, ⟨some "not-a-date", 1⟩] 6 = none :=
  C10_find_weather_at_time_skips_unparseable.2
    [⟨none, 0⟩, ⟨some "not-a-date", 1⟩] 6 (by decide)

set_option maxRecDepth 100000 in
/-- Counterexample to C2 as stated: on the 4-entry map `exWd4` the
first city's name `"Alpha"` occurs 3 times in the article body (it is
interpolated in the opening, temperature and contrast paragraphs), not
exactly once; the other three names occur once each. -/
theorem C2_counterexample :
    generate_article exWd4 = Except.ok exArticle ∧
    countSub "Alpha".data exArticle.data = 3 ∧
    countSub "Beta".data exArticle.data = 1 ∧
    countSub "Gamma".data exArticle.data = 1 ∧
    countSub "Delta".data exArticle.data = 1 := by
  refine ⟨rfl, ?_, ?_, ?_, ?_⟩ <;> decide

/-- C2 (amended): `generate_article` raises a `ValueError` whenever
fewer than 4 weather entries are supplied; on 4 or more entries it
renders the template over the first four entries, interpolating the
first city's name three times (opening, temperature and contrast
paragraphs) and each of the other three city names exactly once — in
particular each of the four names occurs in the body (the original
claim's "each name exactly once" fails for the first name, see
`C2_counterexample`). -/
theorem C2_generate_article_interpolations :
    (∀ wd : List (String × CityWeather), wd.length < 4 →
        generate_article wd =
          Except.error "Minimal 4 kota diperlukan untuk generate artikel") ∧
    (∀ (n1 n2 n3 n4 : String) (c1 c2 c3 c4 : CityWeather)
        (rest : List (String × CityWeather)),
        ∃ A0 A1 A2 A3 A4 A5 A6 : String,
          generate_article
              ((n1, c1) :: (n2, c2) :: (n3, c3) :: (n4, c4) :: rest) =
            Except.ok
              (A0 ++ n1 ++ A1 ++ n1 ++ A2 ++ n1 ++ A3 ++ n2 ++ A4 ++ n3 ++
                A5 ++ n4 ++ A6)) := by
  constructor
  · intro wd h
    simp [generate_article, h]
  · intro n1 n2 n3 n4 c1 c2 c3 c4 rest
    refine
      ⟨"Badan Meteorologi, Klimatologi dan Geofisika (BMKG) memprakirakan cuaca di Kota ",
       " " ++ lowerS c1.weather ++ " pada hari " ++ get_day_name c1.datetime
         ++ ", " ++ get_formatted_date c1.datetime
         ++ ". Kondisi ini berbeda dengan beberapa daerah lainnya di Indonesia yang mengalami cuaca berbeda-beda.\n\nBerdasarkan pantauan di laman resmi BMKG.go.id pada pukul "
         ++ format_time c1.target_hour ++ " " ++ c1.timezone
         ++ ", suhu udara di Kota ",
       " berkisar " ++ intStr c1.temperature
         ++ " derajat Celcius. Sementara, tingkat kelembapan udara berada pada "
         ++ intStr c1.humidity ++ " persen.\n\nBerbeda dengan kota ",
       ", ",
       " pada pukul " ++ format_time c2.target_hour ++ " " ++ c2.timezone
         ++ " diprakirakan " ++ lowerS c2.weather
         ++ " dengan suhu udara berkisar " ++ intStr c2.temperature
         ++ " derajat Celcius. Sementara, untuk tingkat kelembapan udara berada pada angka "
         ++ intStr c2.humidity ++ " persen.\n\nKota ",
       " diprakirakan terjadi " ++ lowerS c3.weather ++ " pada pukul "
         ++ format_time c3.target_hour ++ " " ++ c3.timezone
         ++ ". Suhu udara kota ini berkisar " ++ intStr c3.temperature
         ++ " derajat Celcius. Tingkat kelembapan udaranya berada pada angka "
         ++ intStr c3.humidity
         ++ " persen.\n\nBerbeda dengan kota-kota yang telah dilaporkan, pada pukul "
         ++ format_time c4.target_hour ++ " " ++ c4.timezone ++ " di kota ",
       " diprakirakan " ++ lowerS c4.weather
         ++ ". Suhu udara di kota tersebut berkisar " ++ intStr c4.temperature
         ++ " derajat Celcius, dengan tingkat kelembapan udara berada pada angka antara "
         ++ intStr c4.humidity
         ++ " persen.\n\nBMKG juga mengingatkan bahwa kondisi cuaca dapat berubah sewaktu-waktu. Masyarakat diimbau untuk selalu memantau informasi terkini dari sumber resmi dan mempersiapkan diri sesuai dengan kondisi cuaca di lokasi masing-masing. (*)",
       ?_⟩
    have hlen :
        ¬ ((n1, c1) :: (n2, c2) :: (n3, c3) :: (n4, c4) :: rest).length < 4 := by
      simp [List.length]
    simp only [generate_article, if_neg hlen]
    exact congrArg Except.ok (by simp only [articleText, String.append_assoc])

/-- Witness for C2 (amended): the empty map triggers the validation
error. -/
theorem C2_witness :
    generate_article [] =
      Except.error "Minimal 4 kota diperlukan untuk generate artikel" :=
  C2_generate_article_interpolations.1 [] (by decide)

/-- Membership in a Python-dict assignment: the element is the new
binding or an element of the old dict. -/
theorem mem_dictInsert (m : List (String × CityInfo)) (k : String)
    (v : CityInfo) (p : String × CityInfo) (h : p ∈ dictInsert m k v) :
    p = (k, v) ∨ p ∈ m := by
  unfold dictInsert at h
  split at h
  · obtain ⟨q, hq, hfq⟩ := List.mem_map.1 h
    by_cases hk : q.1 = k
    · left; rw [← hfq, if_pos hk]
    · right; rwa [← hfq, if_neg hk]
  · rcases List.mem_append.1 h with h | h
    · right; exact h
    · left; simpa using h

/-- Membership after inserting a batch of drawn cities: the element
was already present or records one of the drawn cities. -/
theorem mem_insertCities (cs : List City) :
    ∀ (m : List (String × CityInfo)) (p : String × CityInfo),
      p ∈ insertCities m cs → p ∈ m ∨
        ∃ c ∈ cs,
          p = (c.name, (⟨c.code, c.timezone, c.timezone_offset⟩ : CityInfo)) := by
  induction cs with
  | nil => intro m p h; exact Or.inl h
  | cons c cs ih =>
    intro m p h
    rcases ih _ p h with h | ⟨c2, hc2, hp⟩
    · rcases mem_dictInsert _ _ _ _ h with hp | hp
      · exact Or.inr ⟨c, List.mem_cons_self _ _, hp⟩
      · exact Or.inl hp
    · exact Or.inr ⟨c2, List.mem_cons_of_mem _ hc2, hp⟩

/-- Membership through one optional per-zone insertion stage. -/
theorem mem_ifInsert (b : Prop) [Decidable b]
    (m : List (String × CityInfo)) (cs : List City) (p : String × CityInfo)
    (h : p ∈ (if b then insertCities m cs else m)) :
    p ∈ m ∨
      ∃ c ∈ cs,
        p = (c.name, (⟨c.code, c.timezone, c.timezone_offset⟩ : CityInfo)) := by
  split at h
  · exact mem_insertCities cs m p h
  · exact Or.inl h

/-- C6: with all three per-zone counts omitted,
`select_random_cities` draws exactly `total/2` WIB cities, `total/3`
WITA cities and `total - total/2 - total/3` WIT cities (a zone whose
computed count is `0` is skipped entirely), and it replaces the
current selection: the result does not depend on the prior selection
and every stored entry records a city drawn by this call. -/
theorem C6_select_random_cities_split_and_replace
    (getRandom : Nat → String → List City)
    (st1 st2 : List (String × CityInfo)) (total : Nat) :
    select_random_cities getRandom st1 total none none none =
      select_random_cities getRandom st2 total none none none ∧
    select_random_cities getRandom st1 total none none none =
      (let wib := total / 2
       let wita := total / 3
       let wit := total - total / 2 - total / 3
       let s1 := if wib > 0 then insertCities [] (getRandom wib "WIB") else []
       let s2 := if wita > 0 then insertCities s1 (getRandom wita "WITA")
         else s1
       if wit > 0 then insertCities s2 (getRandom wit "WIT") else s2) ∧
    (∀ p ∈ select_random_cities getRandom st1 total none none none,
      ∃ c,
        p = (c.name, (⟨c.code, c.timezone, c.timezone_offset⟩ : CityInfo)) ∧
        (c ∈ getRandom (total / 2) "WIB" ∨
         c ∈ getRandom (total / 3) "WITA" ∨
         c ∈ getRandom (total - total / 2 - total / 3) "WIT")) := by
  refine ⟨rfl, rfl, ?_⟩
  intro p hp
  rcases mem_ifInsert _ _ _ p hp with hp2 | ⟨c, hc, hpc⟩
  · rcases mem_ifInsert _ _ _ p hp2 with hp1 | ⟨c, hc, hpc⟩
    · rcases mem_ifInsert _ _ _ p hp1 with h0 | ⟨c, hc, hpc⟩
      · exact absurd h0 (List.not_mem_nil p)
      · exact ⟨c, hpc, Or.inl hc⟩
    · exact ⟨c, hpc, Or.inr (Or.inl hc)⟩
  · exact ⟨c, hpc, Or.inr (Or.inr hc)⟩

/-- C9: whenever the city-name set of the input weather map does not
contain a common large city (in its capitalized spelling, as the code
checks) and the AI-returned title mentions that city
(case-insensitive containment), `generate_title` returns `None`
instead of the generated title. -/
theorem C9_generate_title_rejects_absent_common_city
    (ai : String → Option String) (pdate : String → Option DT)
    (n0 : String) (c0 : CityWeather) (tl : List (String × CityWeather))
    (d X t : String)
    (hd : titleDateStr pdate c0 = Except.ok d)
    (hai : ai (titlePrompt d (titleSummary ((n0, c0) :: tl))) = some t)
    (hX : X ∈ common_cities)
    (hnot : capitalizeS X ∉ ((n0, c0) :: tl).map Prod.fst)
    (hsub : hasSub X.data (lowerS t).data = true) :
    generate_title true ai pdate ((n0, c0) :: tl) = Except.ok none := by
  have hXne : X.data ≠ [] := by
    have hall : ∀ x ∈ common_cities, x.data ≠ [] := by decide
    exact hall X hX
  have hne : t ≠ "" := by
    intro ht
    subst ht
    have hnil : (lowerS "").data = [] := rfl
    rw [hnil] at hsub
    cases hXd : X.data with
    | nil => exact hXne hXd
    | cons c cs => rw [hXd] at hsub; exact absurd hsub (by simp [hasSub, isPre])
  have hany : common_cities.any (fun city =>
      hasSub city.data (lowerS t).data &&
      !((((n0, c0) :: tl).map Prod.fst).contains (capitalizeS city))) = true := by
    rw [List.any_eq_true]
    refine ⟨X, hX, ?_⟩
    rw [Bool.and_eq_true]
    exact ⟨hsub, by simpa using hnot⟩
  simp only [generate_title, if_true, hd, hai, if_neg hne, hany, if_pos]

/-- Witness for C9: a two-city map (Ambon, Kupang) and an AI title
mentioning Jakarta make `generate_title` return `None`. -/
theorem C9_witness :
    generate_title true
      (fun _ => some
        "BMKG: Cuaca Kota Jakarta 15 Januari 2024 Diprakirakan Hujan Petir, Ambon Cerah")
      (fun _ => some ⟨2024, 1, 15, 6, 0, 0⟩)
      [("Ambon", ⟨"2024-01-15 06:00:00", 28, 80, "Cerah", 6, "WIT"⟩),
       ("Kupang", ⟨"2024-01-15 06:00:00", 30, 70, "Hujan Ringan", 6, "WITA"⟩)] =
      Except.ok none :=
  C9_generate_title_rejects_absent_common_city
    (fun _ => some
      "BMKG: Cuaca Kota Jakarta 15 Januari 2024 Diprakirakan Hujan Petir, Ambon Cerah")
    (fun _ => some ⟨2024, 1, 15, 6, 0, 0⟩)
    "Ambon" ⟨"2024-01-15 06:00:00", 28, 80, "Cerah", 6, "WIT"⟩
    [("Kupang", ⟨"2024-01-15 06:00:00", 30, 70, "Hujan Ringan", 6, "WITA"⟩)]
    "15 Januari 2024" "jakarta"
    "BMKG: Cuaca Kota Jakarta 15 Januari 2024 Diprakirakan Hujan Petir, Ambon Cerah"
    rfl rfl (by decide) (by decide) (by decide)

/-- Each run of the replacement loop makes at most `tries` draw
calls. -/
theorem replaceLoop_count (fetch : String → Option Nat)
    (draw : Nat → String → List City) (tz : String) :
    ∀ (tries : Nat) (st : List String × List (String × FetchedWeather) × Nat),
      (replaceLoop fetch draw tz tries st).2.2 ≤ st.2.2 + tries := by
  intro tries
  induction tries with
  | zero => intro st; simp [replaceLoop]
  | succ n ih =>
    intro st
    obtain ⟨a, r, k⟩ := st
    simp only [replaceLoop]
    cases hdr : draw k tz with
    | nil => simp
    | cons c rest =>
      by_cases hc : c.name ∈ a
      · simp only [if_pos hc]
        have := ih (a, r, k + 1)
        simp at this ⊢ <;> omega
      · simp only [if_neg hc]
        cases fetch c.code with
        | some w => simp
        | none =>
          have := ih (a ++ [c.name], r, k + 1)
          simp at this ⊢ <;> omega

/-- When every drawable candidate is already a known name or fails to
fetch, the replacement loop adds nothing to the result map and keeps
the known names attempted. -/
theorem replaceLoop_no_add (fetch : String → Option Nat)
    (draw : Nat → String → List City) (tz : String) (names : List String)
    (H : ∀ k tz2 c rest, draw k tz2 = c :: rest →
        c.name ∈ names ∨ fetch c.code = none) :
    ∀ (tries : Nat) (st : List String × List (String × FetchedWeather) × Nat),
      (∀ n ∈ names, n ∈ st.1) →
      (replaceLoop fetch draw tz tries st).2.1 = st.2.1 ∧
      (∀ n ∈ names, n ∈ (replaceLoop fetch draw tz tries st).1) := by
  intro tries
  induction tries with
  | zero => intro st h; exact ⟨rfl, h⟩
  | succ n ih =>
    intro st h
    obtain ⟨a, r, k⟩ := st
    simp only [replaceLoop]
    cases hdr : draw k tz with
    | nil => exact ⟨rfl, h⟩
    | cons c rest =>
      rcases H k tz c rest hdr with hin | hfail
      · have hc : c.name ∈ a := h _ hin
        simp only [if_pos hc]
        exact ih (a, r, k + 1) h
      · by_cases hc : c.name ∈ a
        · simp only [if_pos hc]
          exact ih (a, r, k + 1) h
        · simp only [if_neg hc, hfail]
          exact ih (a ++ [c.name], r, k + 1)
            (fun nm hm => List.mem_append_left _ (h nm hm))

/-- The per-failed-city fold neither adds results nor forgets known
names, under the same exhausted-pool hypothesis. -/
theorem foldl_replace_no_add (fetch : String → Option Nat)
    (draw : Nat → String → List City) (names : List String)
    (H : ∀ k tz2 c rest, draw k tz2 = c :: rest →
        c.name ∈ names ∨ fetch c.code = none) :
    ∀ (l : List (String × CityInfo))
      (st : List String × List (String × FetchedWeather) × Nat),
      (∀ n ∈ names, n ∈ st.1) →
      (l.foldl (fun st fc => replaceLoop fetch draw fc.2.timezone 5 st)
          st).2.1 = st.2.1 := by
  intro l
  induction l with
  | nil => intro st _; rfl
  | cons fc l ih =>
    intro st h
    simp only [List.foldl_cons]
    obtain ⟨h1, h2⟩ := replaceLoop_no_add fetch draw fc.2.timezone names H 5 st h
    rw [ih _ h2, h1]

/-- The per-failed-city fold makes at most 5 draw calls per failed
city. -/
theorem foldl_replace_count (fetch : String → Option Nat)
    (draw : Nat → String → List City) :
    ∀ (l : List (String × CityInfo))
      (st : List String × List (String × FetchedWeather) × Nat),
      (l.foldl (fun st fc => replaceLoop fetch draw fc.2.timezone 5 st)
          st).2.2 ≤ st.2.2 + 5 * l.length := by
  intro l
  induction l with
  | nil => intro st; simp
  | cons fc l ih =>
    intro st
    simp only [List.foldl_cons, List.length_cons]
    have h1 := replaceLoop_count fetch draw fc.2.timezone 5 st
    have h2 := ih (replaceLoop fetch draw fc.2.timezone 5 st)
    omega

/-- C8: `fetch_all_cities_weather` with auto-replacement always
terminates (it is a total function of its oracles) making at most 5
replacement draws per configured city, and when a city fails and every
replacement candidate is either already attempted or also fails, the
returned result map simply has no slot for the failed city — the
result map is exactly the phase-1 successes. -/
theorem C8_fetch_all_cities_weather_bounded_and_skips :
    (∀ (fetch : String → Option Nat) (draw : Nat → String → List City)
        (configs : List (String × CityInfo)) (auto : Bool),
        (fetch_all_cities_weather fetch draw configs auto).2 ≤
          5 * configs.length) ∧
    (∀ (fetch : String → Option Nat) (draw : Nat → String → List City)
        (configs : List (String × CityInfo)) (name : String)
        (cfg : CityInfo),
        (configs.map Prod.fst).Nodup →
        (name, cfg) ∈ configs →
        fetch cfg.code = none →
        (∀ k tz c rest, draw k tz = c :: rest →
            c.name ∈ configs.map Prod.fst ∨ fetch c.code = none) →
        (fetch_all_cities_weather fetch draw configs true).1 =
          phase1Results fetch configs ∧
        name ∉ (fetch_all_cities_weather fetch draw configs true).1.map
          Prod.fst) := by
  constructor
  · intro fetch draw configs auto
    unfold fetch_all_cities_weather
    split
    · have h1 := foldl_replace_count fetch draw
        (phase1Failed fetch configs)
        (configs.map Prod.fst, phase1Results fetch configs, 0)
      have h2 : (phase1Failed fetch configs).length ≤ configs.length :=
        List.length_filter_le _ _
      simp only at h1 ⊢
      omega
    · simp
  · intro fetch draw configs name cfg hnd hmem hfail H
    have hfailedmem : (name, cfg) ∈ phase1Failed fetch configs := by
      unfold phase1Failed
      rw [List.mem_filter]
      exact ⟨hmem, by simp [hfail]⟩
    have hifcond : (true = true ∧ phase1Failed fetch configs ≠ []) := by
      refine ⟨rfl, ?_⟩
      intro h
      rw [h] at hfailedmem
      exact List.not_mem_nil _ hfailedmem
    have hres : (fetch_all_cities_weather fetch draw configs true).1 =
        phase1Results fetch configs := by
      unfold fetch_all_cities_weather
      rw [if_pos hifcond]
      exact foldl_replace_no_add fetch draw (configs.map Prod.fst) H
        (phase1Failed fetch configs)
        (configs.map Prod.fst, phase1Results fetch configs, 0)
        (fun n h => h)
    refine ⟨hres, ?_⟩
    rw [hres]
    intro hbad
    obtain ⟨q, hq, hq1⟩ := List.mem_map.1 hbad
    unfold phase1Results at hq
    obtain ⟨p, hp, hpq⟩ := List.mem_filterMap.1 hq
    cases hw : fetch p.2.code with
    | none => rw [hw] at hpq; exact absurd hpq (by simp)
    | some w =>
      rw [hw] at hpq
      simp only [Option.map_some'] at hpq
      injection hpq with hpq
      have hp1 : p.1 = name := by rw [← hq1, ← hpq]
      have : p = (name, cfg) := by
        have := List.inj_on_of_nodup_map hnd hp hmem (by simp [hp1])
        exact this
      rw [this] at hw
      simp only at hw
      rw [hfail] at hw
      exact absurd hw (by simp)

/-- Witness for C8: one configured city (Ambon) whose fetch fails,
with a replacement pool that only ever offers Ambon again: the result
map is empty — no slot for Ambon, no infinite loop. -/
theorem C8_witness :
    (fetch_all_cities_weather (fun _ => none)
        (fun _ _ => [⟨"Ambon", "81.71.01.1001", "WIT", 9⟩])
        [("Ambon", ⟨"81.71.01.1001", "WIT", 9⟩)] true).1 =
      phase1Results (fun _ => none)
        [("Ambon", ⟨"81.71.01.1001", "WIT", 9⟩)] ∧
    "Ambon" ∉ ((fetch_all_cities_weather (fun _ => none)
        (fun _ _ => [⟨"Ambon", "81.71.01.1001", "WIT", 9⟩])
        [("Ambon", ⟨"81.71.01.1001", "WIT", 9⟩)] true).1.map Prod.fst) :=
  C8_fetch_all_cities_weather_bounded_and_skips.2
    (fun _ => none)
    (fun _ _ => [⟨"Ambon", "81.71.01.1001", "WIT", 9⟩])
    [("Ambon", ⟨"81.71.01.1001", "WIT", 9⟩)]
    "Ambon" ⟨"81.71.01.1001", "WIT", 9⟩
    (by decide) (by decide) rfl
    (by
      intro k tz c rest h
      injection h with h1 h2
      subst h1
      left
      decide)

/-- Lemma: `find?` returns the marked element when everything before it fails
the predicate. -/
theorem find?_first_match (p : Row → Bool) :
    ∀ (pre : List Row) (r : Row) (post : List Row), p r = true →
      (∀ x ∈ pre, p x = false) → (pre ++ r :: post).find? p = some r := by
  intro pre
  induction pre with
  | nil =>
    intro r post hr _
    simp only [List.nil_append]
    exact List.find?_cons_of_pos _ hr
  | cons x pre ih =>
    intro r post hr hpre
    simp only [List.cons_append]
    rw [List.find?_cons_of_neg _
      (by simp [hpre x (List.mem_cons_self _ _)])]
    exact ih r post hr (fun y hy => hpre y (List.mem_cons_of_mem _ hy))

/-- Counterexample to C3 as stated: the row `('32.71', 'KAB. BOGOR')`
satisfies every keyword-search constraint but not the name-lookup
constraint (`nama LIKE 'KOTA %'`), so on `exTableC3` the keyword
search for "bogor" returns the record while the name lookup returns
nothing — keyword eligibility does not coincide with name-lookup
eligibility. -/
theorem C3_counterexample :
    eligKeyword "bogor" ⟨"32.71", "KAB. BOGOR"⟩ = true ∧
    eligName "bogor" ⟨"32.71", "KAB. BOGOR"⟩ = false ∧
    get_cities_by_keyword exTableC3 "bogor" 10 =
      [⟨"Bogor", "32.71.01.1001", "WIB", 7⟩] ∧
    get_city_by_name exTableC3 "bogor" = none := by
  refine ⟨rfl, rfl, by decide, by decide⟩

/-- C3 (amended): the two lookups share the length-5, segment `>= 71`
and case-insensitive substring constraints, but keyword search also
admits the regency marker `'KAB. '`: a row is name-lookup eligible iff
it is keyword eligible and carries the `'KOTA '` marker.  Keyword
results are the `DISTINCT` eligible rows ordered by raw `nama` and
capped at `limit`; name lookup resolves only the first eligible row in
scan order. -/
theorem C3_name_and_keyword_filters :
    (∀ (q : String) (r : Row),
        eligName q r = (eligKeyword q r && isPre "KOTA ".data r.nama.data)) ∧
    (∀ (table : List Row) (q : String) (limit : Nat),
        ∃ rows : List Row,
          get_cities_by_keyword table q limit =
            rows.filterMap (buildCity table) ∧
          rows.Sorted rowLe ∧
          rows.length ≤ limit ∧
          (get_cities_by_keyword table q limit).length ≤ limit ∧
          (∀ r ∈ rows, eligKeyword q r = true)) ∧
    (∀ (table : List Row) (q : String) (pre : List Row) (r : Row)
        (post : List Row),
        table = pre ++ r :: post → eligName q r = true →
        (∀ x ∈ pre, eligName q x = false) →
        get_city_by_name table q = buildCity table r) := by
  refine ⟨?_, ?_, ?_⟩
  · intro q r
    have key : ∀ a b c : Bool, (a && b) = (a && (b || c) && b) := by decide
    exact key (rowCityBase q r) (isPre "KOTA ".data r.nama.data)
      (isPre "KAB. ".data r.nama.data)
  · intro table q limit
    refine ⟨(((table.filter (eligKeyword q)).dedup).insertionSort
      rowLe).take limit, rfl, ?_, ?_, ?_, ?_⟩
    · exact List.Pairwise.sublist (List.take_sublist _ _)
        (List.sorted_insertionSort rowLe _)
    · exact List.length_take_le _ _
    · exact le_trans (List.length_filterMap_le _ _) (List.length_take_le _ _)
    · intro r hr
      have h1 : r ∈ ((table.filter (eligKeyword q)).dedup).insertionSort
          rowLe := List.mem_of_mem_take hr
      have h2 : r ∈ (table.filter (eligKeyword q)).dedup :=
        (List.mem_insertionSort rowLe).1 h1
      have h3 : r ∈ table.filter (eligKeyword q) := List.mem_dedup.1 h2
      exact (List.mem_filter.1 h3).2
  · intro table q pre r post htab he hpre
    subst htab
    unfold get_city_by_name
    rw [find?_first_match (eligName q) pre r post he hpre]

/-- Witness for C3 (amended): on a two-row table the name lookup for
"banda" resolves the first (and only) eligible row. -/
theorem C3_witness :
    get_city_by_name [⟨"11.71", "KOTA BANDA ACEH"⟩,
        ⟨"11.71.01.1001", "GAMPONG JAWA"⟩] "banda" =
      buildCity [⟨"11.71", "KOTA BANDA ACEH"⟩,
        ⟨"11.71.01.1001", "GAMPONG JAWA"⟩] ⟨"11.71", "KOTA BANDA ACEH"⟩ :=
  C3_name_and_keyword_filters.2.2
    [⟨"11.71", "KOTA BANDA ACEH"⟩, ⟨"11.71.01.1001", "GAMPONG JAWA"⟩]
    "banda" [] ⟨"11.71", "KOTA BANDA ACEH"⟩
    [⟨"11.71.01.1001", "GAMPONG JAWA"⟩] rfl (by decide)
    (by intro x hx; exact absurd hx (List.not_mem_nil x))

/-- Lemma: `isPre` is the prefix relation. -/
theorem isPre_iff : ∀ p s : List Char, isPre p s = true ↔ ∃ t, s = p ++ t := by
  intro p
  induction p with
  | nil => intro s; simp [isPre]
  | cons a ps ih =>
    intro s
    cases s with
    | nil =>
      simp only [isPre]
      constructor
      · intro h; exact absurd h (by simp)
      · rintro ⟨t, ht⟩; exact absurd ht (by simp)
    | cons c cs =>
      simp only [isPre, Bool.and_eq_true, decide_eq_true_eq]
      rw [ih cs]
      constructor
      · rintro ⟨rfl, t, rfl⟩; exact ⟨t, rfl⟩
      · rintro ⟨t, ht⟩
        injection ht with h1 h2
        exact ⟨h1.symm, t, h2⟩

/-- A prefix of a string extended by anything is still a prefix. -/
theorem isPre_chain (a : List Char) (b : String) (s : List Char)
    (h1 : isPre a b.data = true) (h2 : isPre (b.data ++ ['.']) s = true) :
    isPre a s = true := by
  obtain ⟨t1, ht1⟩ := (isPre_iff a b.data).1 h1
  obtain ⟨t2, ht2⟩ := (isPre_iff _ s).1 h2
  rw [isPre_iff]
  exact ⟨t1 ++ ['.'] ++ t2, by rw [ht2, ht1]; simp⟩

/-- Two same-length dot-terminated prefixes of one string agree. -/
theorem code_prefix_inj (a b : String) (s : List Char)
    (hlen : a.length = b.length)
    (ha : isPre (a ++ ".").data s = true)
    (hb : isPre (b ++ ".").data s = true) : a = b := by
  obtain ⟨ta, hta⟩ := (isPre_iff _ s).1 ha
  obtain ⟨tb, htb⟩ := (isPre_iff _ s).1 hb
  rw [String.data_append] at hta htb
  have hd : a.data ++ (".".data ++ ta) = b.data ++ (".".data ++ tb) := by
    rw [← List.append_assoc, ← List.append_assoc, ← hta, ← htb]
  have := List.append_inj hd hlen
  cases a; cases b
  exact congrArg String.mk (by simpa using this.1)

/-- Lemma: `takeWhile (· ≠ '.')` of `a ++ '.' :: r` is `a` when `a` is
dot-free. -/
theorem takeWhile_no_dot :
    ∀ (a : List Char), (∀ c ∈ a, ¬ c = '.') → ∀ r : List Char,
      (a ++ '.' :: r).takeWhile (fun c => decide (c ≠ '.')) = a := by
  intro a
  induction a with
  | nil => intro _ r; simp [List.takeWhile]
  | cons c cs ih =>
    intro h r
    have hc : ¬ c = '.' := h c (List.mem_cons_self _ _)
    have ih2 := ih (fun x hx => h x (List.mem_cons_of_mem _ hx)) r
    simp only [ne_eq, decide_not] at ih2
    simp [List.takeWhile_cons, hc, ih2]

/-- The province keys of the static map are distinct. -/
theorem tm_keys_nodup : (timezone_mapping.map (fun e => e.1)).Nodup := by
  decide

/-- Every province key of the static map has two dot-free
characters. -/
theorem tm_key_shape :
    ∀ e ∈ timezone_mapping, e.1.length = 2 ∧ ∀ c ∈ e.1.data, ¬ c = '.' := by
  decide

/-- On an association list with distinct keys, `find?` by the key of a
member returns that member. -/
theorem find?_assoc_nodup :
    ∀ (l : List (String × String × Nat)) (p : String)
      (e : String × String × Nat),
      (l.map (fun x => x.1)).Nodup → e ∈ l → e.1 = p →
      l.find? (fun x => x.1 = p) = some e := by
  intro l
  induction l with
  | nil => intro p e _ he _; exact absurd he (List.not_mem_nil e)
  | cons f l ih =>
    intro p e hnd he hkey
    by_cases hf : f.1 = p
    · have hef : e = f := by
        rcases List.mem_cons.1 he with rfl | he2
        · rfl
        · exfalso
          have : e.1 ∈ l.map (fun x => x.1) :=
            List.mem_map.2 ⟨e, he2, rfl⟩
          rw [hkey, ← hf] at this
          exact (List.nodup_cons.1 hnd).1 this
      rw [List.find?_cons_of_pos _ (by simp [hf])]
      rw [hef]
    · rw [List.find?_cons_of_neg _ (by simp [hf])]
      refine ih p e (List.nodup_cons.1 hnd).2 ?_ hkey
      rcases List.mem_cons.1 he with rfl | he2
      · exact absurd hkey hf
      · exact he2

/-- Membership in a zone's province-code list. -/
theorem mem_provCodesFor (p : String) (tz : String) :
    p ∈ provCodesFor tz ↔ ∃ o, (p, (tz, o)) ∈ timezone_mapping := by
  unfold provCodesFor
  rw [List.mem_map]
  constructor
  · rintro ⟨e, he, rfl⟩
    obtain ⟨he1, he2⟩ := List.mem_filter.1 he
    refine ⟨e.2.2, ?_⟩
    have : e.2.1 = tz := by simpa using he2
    have he3 : e = (e.1, (tz, e.2.2)) := by
      rw [← this]
    rwa [← he3]
  · rintro ⟨o, ho⟩
    exact ⟨(p, (tz, o)), List.mem_filter.2 ⟨ho, by simp⟩, rfl⟩

/-- A zone's province-code list has no duplicates. -/
theorem provCodesFor_nodup (tz : String) : (provCodesFor tz).Nodup := by
  unfold provCodesFor
  have h1 : List.Sublist
      ((timezone_mapping.filter (fun e => e.2.1 = tz)).map (fun e => e.1))
      (timezone_mapping.map (fun e => e.1)) :=
    (List.filter_sublist timezone_mapping).map _
  exact tm_keys_nodup.sublist h1

/-- Province codes of a zone are two dot-free characters. -/
theorem provCodesFor_shape (p : String) (tz : String)
    (h : p ∈ provCodesFor tz) :
    p.length = 2 ∧ ∀ c ∈ p.data, ¬ c = '.' := by
  obtain ⟨o, ho⟩ := (mem_provCodesFor p tz).1 h
  simpa using tm_key_shape (p, (tz, o)) ho

/-- A province code belongs to only one zone. -/
theorem provCodes_disjoint (z1 z2 : String) (hne : z1 ≠ z2) (p : String)
    (h1 : p ∈ provCodesFor z1) (h2 : p ∈ provCodesFor z2) : False := by
  obtain ⟨o1, ho1⟩ := (mem_provCodesFor p z1).1 h1
  obtain ⟨o2, ho2⟩ := (mem_provCodesFor p z2).1 h2
  have e1 := find?_assoc_nodup timezone_mapping p (p, (z1, o1))
    tm_keys_nodup ho1 rfl
  have e2 := find?_assoc_nodup timezone_mapping p (p, (z2, o2))
    tm_keys_nodup ho2 rfl
  rw [e1] at e2
  injection e2 with e3
  apply hne
  have := congrArg (fun x => x.2.1) e3
  simpa using this

/-- A code that extends `prov ++ "."` resolves to `prov`'s timezone
entry. -/
theorem get_timezone_info_of_prefix (prov : String) (tzo : String × Nat)
    (kode : String) (hmem : (prov, tzo) ∈ timezone_mapping)
    (hpre : isPre (prov ++ ".").data kode.data = true) :
    get_timezone_info kode = tzo := by
  obtain ⟨rest, hk⟩ := (isPre_iff _ _).1 hpre
  have hdat : kode.data = prov.data ++ '.' :: rest := by
    rw [hk, String.data_append]
    simp
  have hnodot : ∀ c ∈ prov.data, ¬ c = '.' := by
    simpa using (tm_key_shape (prov, tzo) hmem).2
  have hsplit : splitHeadDot kode = prov := by
    unfold splitHeadDot
    rw [hdat, takeWhile_no_dot prov.data hnodot rest]
  have hfind := find?_assoc_nodup timezone_mapping prov (prov, tzo)
    tm_keys_nodup hmem rfl
  unfold get_timezone_info
  rw [hsplit, hfind]

/-- Facts about a successfully built city record: its code is the
first kelurahan descendant's code, which extends the city row's code,
and its timezone comes from that descendant. -/
theorem buildCity_facts (table : List Row) (r : Row) (c : City)
    (h : buildCity table r = some c) :
    ∃ kel : Row, c.code = kel.kode ∧
      isPre (r.kode ++ ".").data kel.kode.data = true ∧
      c.timezone = (get_timezone_info kel.kode).1 ∧
      c.timezone_offset = (get_timezone_info kel.kode).2 := by
  unfold buildCity at h
  cases hf : first_kelurahan table r.kode with
  | none => rw [hf] at h; exact absurd h (by simp)
  | some kel =>
    rw [hf] at h
    simp only [Option.map_some'] at h
    injection h with h
    exact ⟨kel, by rw [← h], by
      have hp := List.find?_some hf
      simp only [Bool.and_eq_true] at hp
      exact hp.1, by rw [← h], by rw [← h]⟩

/-- A member of a province's city list comes from a row passing the
province filter. -/
theorem mem_provCities (table : List Row) (prov : String) (c : City)
    (h : c ∈ provCities table prov) :
    ∃ r, cityFilterProv prov r = true ∧ buildCity table r = some c := by
  unfold provCities at h
  obtain ⟨r, hr, hb⟩ := List.mem_filterMap.1 h
  refine ⟨r, ?_, hb⟩
  have h2 : r ∈ table.filter (cityFilterProv prov) :=
    (List.mem_insertionSort rowLe).1 hr
  exact (List.mem_filter.1 h2).2

/-- Every code in a province's city list extends `prov ++ "."`. -/
theorem provCities_code_prefix (table : List Row) (prov : String) (c : City)
    (h : c ∈ provCities table prov) :
    isPre (prov ++ ".").data c.code.data = true := by
  obtain ⟨r, hf, hb⟩ := mem_provCities _ _ _ h
  obtain ⟨kel, hcode, hpre, _, _⟩ := buildCity_facts _ _ _ hb
  have h1 : isPre (prov ++ ".").data r.kode.data = true := by
    simp only [cityFilterProv, Bool.and_eq_true] at hf
    exact hf.1.1.1
  have hpre2 : isPre (r.kode.data ++ ['.']) kel.kode.data = true := by
    have : (r.kode ++ ".").data = r.kode.data ++ ['.'] := by
      rw [String.data_append]
    rwa [this] at hpre
  rw [hcode]
  exact isPre_chain _ r.kode _ h1 hpre2

/-- Every record in a province's city list carries the province's
mapped timezone. -/
theorem provCities_timezone (table : List Row) (prov : String)
    (tzo : String × Nat) (c : City) (hmem : (prov, tzo) ∈ timezone_mapping)
    (h : c ∈ provCities table prov) : c.timezone = tzo.1 := by
  obtain ⟨r, hf, hb⟩ := mem_provCities _ _ _ h
  obtain ⟨kel, hcode, hpre, htz, _⟩ := buildCity_facts _ _ _ hb
  have h1 : isPre (prov ++ ".").data r.kode.data = true := by
    simp only [cityFilterProv, Bool.and_eq_true] at hf
    exact hf.1.1.1
  have hpre2 : isPre (r.kode.data ++ ['.']) kel.kode.data = true := by
    have : (r.kode ++ ".").data = r.kode.data ++ ['.'] := by
      rw [String.data_append]
    rwa [this] at hpre
  have h2 : isPre (prov ++ ".").data kel.kode.data = true :=
    isPre_chain _ r.kode _ h1 hpre2
  rw [htz, get_timezone_info_of_prefix prov tzo kel.kode hmem h2]

/-- Every record of a zone query carries that zone, and its code
extends one of the zone's province codes. -/
theorem mem_tz_facts (table : List Row) (tz : String) (c : City)
    (h : c ∈ get_cities_by_timezone table tz) :
    c.timezone = tz ∧
    ∃ p ∈ provCodesFor tz, isPre (p ++ ".").data c.code.data = true := by
  unfold get_cities_by_timezone at h
  obtain ⟨prov, hprov, hc⟩ := List.mem_flatMap.1 h
  obtain ⟨o, ho⟩ := (mem_provCodesFor prov tz).1 hprov
  exact ⟨provCities_timezone table prov (tz, o) c ho hc,
    prov, hprov, provCities_code_prefix _ _ _ hc⟩

/-- Lemma: `filterMap` preserves `Nodup` when the partial function is
injective on the list's members. -/
theorem nodup_filterMap_mem {α β : Type} (f : α → Option β) :
    ∀ l : List α,
      (∀ a ∈ l, ∀ b ∈ l, ∀ c, f a = some c → f b = some c → a = b) →
      l.Nodup → (l.filterMap f).Nodup := by
  intro l
  induction l with
  | nil => intro _ _; simp
  | cons a l ih =>
    intro hinj h
    obtain ⟨ha, hl⟩ := List.nodup_cons.1 h
    rw [List.filterMap_cons]
    have hinj2 : ∀ x ∈ l, ∀ y ∈ l, ∀ c, f x = some c → f y = some c → x = y :=
      fun x hx y hy c h1 h2 =>
        hinj x (List.mem_cons_of_mem _ hx) y (List.mem_cons_of_mem _ hy) c h1 h2
    cases hfa : f a with
    | none => exact ih hinj2 hl
    | some c =>
      rw [List.nodup_cons]
      refine ⟨?_, ih hinj2 hl⟩
      intro hcmem
      obtain ⟨b, hb, hfb⟩ := List.mem_filterMap.1 hcmem
      have hab : a = b := hinj a (List.mem_cons_self _ _) b
        (List.mem_cons_of_mem _ hb) c hfa hfb
      rw [hab] at ha
      exact ha hb

/-- With unique `kode`s in the table, the codes produced by one
province's city list are distinct. -/
theorem provCities_codes_nodup (table : List Row) (prov : String)
    (hnd : (table.map Row.kode).Nodup) :
    ((provCities table prov).map City.code).Nodup := by
  unfold provCities
  rw [List.map_filterMap]
  have hperm : List.Perm
      ((table.filter (cityFilterProv prov)).insertionSort rowLe)
      (table.filter (cityFilterProv prov)) :=
    List.perm_insertionSort _ _
  have hkodes : (((table.filter (cityFilterProv prov)).insertionSort
      rowLe).map Row.kode).Nodup := by
    have hsub : List.Sublist
        ((table.filter (cityFilterProv prov)).map Row.kode)
        (table.map Row.kode) :=
      (List.filter_sublist _).map _
    exact ((hperm.map Row.kode).nodup_iff).2 (hnd.sublist hsub)
  refine nodup_filterMap_mem _ _ ?_ (List.Nodup.of_map _ hkodes)
  intro a ha b hb c h1 h2
  obtain ⟨ca, hca, hcac⟩ := Option.map_eq_some'.1 h1
  obtain ⟨cb, hcb, hcbc⟩ := Option.map_eq_some'.1 h2
  obtain ⟨kela, hek1, hek2, _, _⟩ := buildCity_facts _ _ _ hca
  obtain ⟨kelb, hfk1, hfk2, _, _⟩ := buildCity_facts _ _ _ hcb
  have hma := hperm.subset ha
  have hmb := hperm.subset hb
  have hfa := (List.mem_filter.1 hma).2
  have hfb := (List.mem_filter.1 hmb).2
  simp only [cityFilterProv, Bool.and_eq_true, decide_eq_true_eq] at hfa hfb
  have hlen : a.kode.length = b.kode.length := by
    rw [hfa.1.1.2, hfb.1.1.2]
  have hpa : isPre (a.kode ++ ".").data c.data = true := by
    have hkc : c = kela.kode := by rw [← hcac, hek1]
    rw [hkc]
    exact hek2
  have hpb : isPre (b.kode ++ ".").data c.data = true := by
    have hkc : c = kelb.kode := by rw [← hcbc, hfk1]
    rw [hkc]
    exact hfk2
  exact List.inj_on_of_nodup_map hkodes ha hb
    (code_prefix_inj _ _ c.data hlen hpa hpb)

/-- With unique `kode`s in the table, one zone's query returns
records with pairwise distinct codes. -/
theorem tz_codes_nodup (table : List Row) (tz : String)
    (hnd : (table.map Row.kode).Nodup) :
    ((get_cities_by_timezone table tz).map City.code).Nodup := by
  unfold get_cities_by_timezone
  rw [List.map_flatMap, List.nodup_flatMap]
  constructor
  · intro p _
    exact provCities_codes_nodup table p hnd
  · refine List.Pairwise.imp_of_mem ?_ (provCodesFor_nodup tz)
    intro p1 p2 hm1 hm2 hne x hx1 hx2
    obtain ⟨c1, hc1, hc1x⟩ := List.mem_map.1 hx1
    obtain ⟨c2, hc2, hc2x⟩ := List.mem_map.1 hx2
    have hp1 := provCities_code_prefix table p1 c1 hc1
    have hp2 := provCities_code_prefix table p2 c2 hc2
    have hs1 := (provCodesFor_shape p1 tz hm1).1
    have hs2 := (provCodesFor_shape p2 tz hm2).1
    rw [hc1x] at hp1
    rw [hc2x] at hp2
    exact hne (code_prefix_inj p1 p2 x.data (hs1.trans hs2.symm) hp1 hp2)

/-- Codes returned for different zones never coincide. -/
theorem tz_codes_disjoint (table : List Row) (z1 z2 : String)
    (hne : z1 ≠ z2) :
    List.Disjoint ((get_cities_by_timezone table z1).map City.code)
      ((get_cities_by_timezone table z2).map City.code) := by
  intro x hx1 hx2
  obtain ⟨c1, hc1, hc1x⟩ := List.mem_map.1 hx1
  obtain ⟨c2, hc2, hc2x⟩ := List.mem_map.1 hx2
  obtain ⟨-, p1, hm1, hp1⟩ := mem_tz_facts table z1 c1 hc1
  obtain ⟨-, p2, hm2, hp2⟩ := mem_tz_facts table z2 c2 hc2
  have hs1 := (provCodesFor_shape p1 z1 hm1).1
  have hs2 := (provCodesFor_shape p2 z2 hm2).1
  rw [hc1x] at hp1
  rw [hc2x] at hp2
  have hpp : p1 = p2 := code_prefix_inj p1 p2 x.data (hs1.trans hs2.symm) hp1 hp2
  exact provCodes_disjoint z1 z2 hne p1 hm1 (hpp ▸ hm2)

/-- With unique `kode`s in the table, the whole candidate pool of
`get_random_cities` has pairwise distinct codes. -/
theorem pool_codes_nodup (table : List Row) (tzOpt : Option String)
    (hnd : (table.map Row.kode).Nodup) :
    ((city_pool table tzOpt).map City.code).Nodup := by
  cases tzOpt with
  | some tz => exact tz_codes_nodup table tz hnd
  | none =>
    show (((get_cities_by_timezone table "WIB" ++
      get_cities_by_timezone table "WITA" ++
      get_cities_by_timezone table "WIT").map City.code)).Nodup
    rw [List.map_append, List.map_append, List.nodup_append,
      List.nodup_append]
    refine ⟨⟨tz_codes_nodup table "WIB" hnd, tz_codes_nodup table "WITA" hnd,
      tz_codes_disjoint table "WIB" "WITA" (by decide)⟩,
      tz_codes_nodup table "WIT" hnd, ?_⟩
    intro x hx hx2
    rcases List.mem_append.1 hx with hx1 | hx1
    · exact tz_codes_disjoint table "WIB" "WIT" (by decide) hx1 hx2
    · exact tz_codes_disjoint table "WITA" "WIT" (by decide) hx1 hx2

/-- Every record of the candidate pool for a requested zone carries
that zone. -/
theorem pool_timezone (table : List Row) (tz : String) (c : City)
    (h : c ∈ city_pool table (some tz)) : c.timezone = tz :=
  (mem_tz_facts table tz c h).1

/-- C5: `get_random_cities` returns at most `count` records; with a
requested zone every returned record belongs to it; with unique
`kode`s in the table (the data-model invariant the spec states as a
primary key) no two returned records share a `code`; and a pool of at
most `count` members is returned whole, without error.  The
`random.sample` oracle is only assumed to return `k` of the pool's
members without replacement when `k < pool.length`, which is the
contract of `random.sample` on the only call the code makes. -/
theorem C5_get_random_cities (sample : List City → Nat → List City)
    (table : List Row) (count : Nat) (tzOpt : Option String)
    (hs : ∀ l k, k < l.length →
      (sample l k).length = k ∧ List.Subperm (sample l k) l)
    (hnd : (table.map Row.kode).Nodup) :
    (get_random_cities sample table count tzOpt).length ≤ count ∧
    (∀ tz, tzOpt = some tz →
      ∀ c ∈ get_random_cities sample table count tzOpt, c.timezone = tz) ∧
    ((get_random_cities sample table count tzOpt).map City.code).Nodup ∧
    ((city_pool table tzOpt).length ≤ count →
      get_random_cities sample table count tzOpt = city_pool table tzOpt) := by
  by_cases hle : (city_pool table tzOpt).length ≤ count
  · rw [get_random_cities, if_pos hle]
    refine ⟨hle, ?_, pool_codes_nodup table tzOpt hnd, fun _ => rfl⟩
    rintro tz rfl c hc
    exact pool_timezone table tz c hc
  · rw [get_random_cities, if_neg hle]
    obtain ⟨hlen, hsp⟩ :=
      hs (city_pool table tzOpt) count (by omega)
    obtain ⟨l2, hperm, hsub⟩ := hsp
    refine ⟨by omega, ?_, ?_, fun h => absurd h hle⟩
    · rintro tz rfl c hc
      exact pool_timezone table tz c
        (hsub.subset (hperm.mem_iff.2 hc))
    · have h1 : (l2.map City.code).Nodup :=
        (pool_codes_nodup table tzOpt hnd).sublist (hsub.map City.code)
      exact ((hperm.map City.code).nodup_iff).1 h1

/-- The `random.sample` contract holds for the take-a-prefix
sampler used in the C5 witness. -/
theorem takeSample_ok : ∀ (l : List City) (k : Nat), k < l.length →
    ((l.take k).length = k ∧ List.Subperm (l.take k) l) := by
  intro l k h
  refine ⟨by simp [List.length_take]; omega, (List.take_sublist k l).subperm⟩

/-- Witness for C5: on a two-row table with unique codes, sampling one
WIB city yields at most one record with distinct codes, and the whole
pool is returned when it fits. -/
theorem C5_witness :
    (get_random_cities (fun l k => l.take k) exTableC5 1
      (some "WIB")).length ≤ 1 ∧
    ((get_random_cities (fun l k => l.take k) exTableC5 1
      (some "WIB")).map City.code).Nodup :=
  ⟨(C5_get_random_cities (fun l k => l.take k) exTableC5 1 (some "WIB")
      takeSample_ok (by decide)).1,
   (C5_get_random_cities (fun l k => l.take k) exTableC5 1 (some "WIB")
      takeSample_ok (by decide)).2.2.1⟩
